import Mathlib

/-!
# Shortlink worker: a shallow embedding of `src/index.js`

The worker keeps one key-value namespace (`env.SHORTLINK_KV`) and answers three
kinds of request: create a short link, follow a short link (counting the visit),
and read a short link's record.  A router sends each request to one of the three
handlers, to a 404, or to the landing page.

Embedding conventions.

* JavaScript strings are Lean strings.  Every length the code takes is the length
  of an ASCII string (`CHARSET`, a generated identifier), where code units and
  characters agree.
* `await` is sequencing: each `async` function is a function from the state
  before the call to a result and the state after it.
* The state `Env` holds the key-value namespace, the bytes the cryptographic
  random source will deliver next, the reading of the clock, and a trace of the
  effects performed so far (ghost state used to count lookups and writes).
* Built-ins of the language and of the runtime whose text is not part of the
  repository (`new URL`, `JSON.parse`, `JSON.stringify`, string and numeric
  coercion of non-string and non-number values) are fields of `Platform`.
* JavaScript numbers are doubles; the model holds the integer-valued ones as
  `Int` and rounds the result of an addition to the nearest double.
* An exception is a result `none`; the `try`/`catch` of a handler turns it into
  the handler's error response.
* The text of the landing page (`generateHomePage`) is an argument of the router.
-/

namespace Shortlink

/-! ## Values -/

/-- JavaScript values that can appear in a parsed JSON document, and `undefined`
for an absent property.  `number n` is the double whose value is the integer
`n`. -/
inductive JsValue where
  | undefined
  | null
  | bool (b : Bool)
  | number (n : Int)
  | string (s : String)
  | array (items : List JsValue)
  | object (fields : List (String × JsValue))

namespace JsValue

/-- Truthiness (`ToBoolean`): `undefined`, `null`, `false`, `0` and the empty
string are falsy, everything else is truthy. -/
def truthy : JsValue → Bool
  | undefined => false
  | null => false
  | bool b => b
  | number n => n != 0
  | string s => s != ""
  | array _ => true
  | object _ => true

/-- The test `typeof value === 'string'`. -/
def isString : JsValue → Bool
  | string _ => true
  | _ => false

/-- Property read on a list of own properties; an absent property reads as
`undefined`. -/
def lookupField (name : String) : List (String × JsValue) → JsValue
  | [] => undefined
  | (k, v) :: rest => if k = name then v else lookupField name rest

/-- Property write on a list of own properties: an existing property keeps its
place, a new one is added at the end. -/
def setField (name : String) (v : JsValue) : List (String × JsValue) → List (String × JsValue)
  | [] => [(name, v)]
  | (k, w) :: rest => if k = name then (k, v) :: rest else (k, w) :: setField name v rest

end JsValue

open JsValue

/-- Built-ins the source calls whose definitions belong to the language runtime. -/
structure Platform where
  /-- The runtime's URL parser: the serialisation (`href`) of the parsed URL, or
  `none` when the string does not parse.  Both `new URL(s)` and
  `Response.redirect(s, status)` throw exactly when `s` does not parse. -/
  urlParse : String → Option String
  /-- The built-in `JSON.parse`; `none` when it throws. -/
  jsonParse : String → Option JsValue
  /-- The built-in `JSON.stringify`. -/
  jsonStringify : JsValue → String
  /-- String coercion (`ToString`) of a value that is not a string. -/
  toStr : JsValue → String
  /-- The result of `++` on a value that is not a number. -/
  incrementOther : JsValue → JsValue

/-- String coercion of a value used as a key or inside a template literal. -/
def Platform.coerceString (P : Platform) : JsValue → String
  | .string s => s
  | v => P.toStr v

/-- The call `new URL(s)` returns (does not throw). -/
def Platform.urlParses (P : Platform) (s : String) : Bool :=
  (P.urlParse s).isSome

/-- The number of low bits an integer of magnitude `a` loses in a double, which
holds 53 significant bits: the least `e` with `a / 2 ^ e < 2 ^ 53` (`fuel` bounds
the search and `a` itself is enough). -/
def droppedBits : Nat → Nat → Nat
  | 0, _ => 0
  | fuel + 1, a => if a < 2 ^ 53 then 0 else droppedBits fuel (a / 2) + 1

/-- The double nearest to an integer: round to nearest, ties to the even
significand.  Integers of magnitude up to `2 ^ 53` are doubles themselves. -/
def roundToDouble (m : Int) : Int :=
  let a := m.natAbs
  let e := droppedBits a a
  let q := a / 2 ^ e
  let r := a % 2 ^ e
  let rounded := if 2 ^ e < 2 * r ∨ (2 * r = 2 ^ e ∧ q % 2 = 1) then q + 1 else q
  if m < 0 then -((rounded * 2 ^ e : Nat) : Int) else ((rounded * 2 ^ e : Nat) : Int)

/-- The postfix `++` applied to a property value: a number goes up by one, in
double arithmetic. -/
def Platform.increment (P : Platform) : JsValue → JsValue
  | .number n => .number (roundToDouble (n + 1))
  | v => P.incrementOther v

/-! ## Configuration -/

/-- The shape of the `CONFIG` object. -/
structure Config where
  BASE_URL : String
  SHORT_ID_LENGTH : Nat
  ADMIN_KEY : String

/-- The `CONFIG` object of the source. -/
def CONFIG : Config :=
  { BASE_URL := "https://your-worker-domain.workers.dev"
    SHORT_ID_LENGTH := 6
    ADMIN_KEY := "your-admin-key-here" }

/-- The alphabet identifiers are generated from. -/
def CHARSET : String := "ABCDEFGHIJKLMNOPQRSTUVWXYZabcdefghijklmnopqrstuvwxyz0123456789"

/-! ## State and effects -/

/-- One observable effect of a handler. -/
inductive Effect where
  | kvGet (key : String)
  | kvPut (key : String) (value : String)
  | random (count : Nat)
deriving DecidableEq

/-- The state a handler runs in. -/
structure Env where
  /-- The namespace `env.SHORTLINK_KV`: the value stored under each key. -/
  SHORTLINK_KV : String → Option String
  /-- The bytes the random source delivers next (each taken modulo 256). -/
  entropy : Nat → Nat
  /-- The value of `new Date().toISOString()`. -/
  now : String
  /-- The effects performed so far, oldest first. -/
  trace : List Effect

/-- The call `env.SHORTLINK_KV.get(key)`. -/
def kvGet (key : String) (env : Env) : Option String × Env :=
  (env.SHORTLINK_KV key, { env with trace := env.trace ++ [Effect.kvGet key] })

/-- The call `env.SHORTLINK_KV.put(key, value)`. -/
def kvPut (key : String) (value : String) (env : Env) : Env :=
  { env with
    SHORTLINK_KV := fun k => if k = key then some value else env.SHORTLINK_KV k
    trace := env.trace ++ [Effect.kvPut key value] }

/-- Truthiness of the result of a lookup, which is `null` or a string. -/
def lookupTruthy : Option String → Bool
  | none => false
  | some s => s != ""

/-- The calls `new Uint8Array(length)` and `crypto.getRandomValues(...)`: the next
`length` bytes of the random source; `none` when the call throws, which it does
when more than 65536 bytes are asked for. -/
def getRandomValues (length : Nat) (env : Env) : Option (List Nat × Env) :=
  if length ≤ 65536 then
    some ((List.range length).map (fun i => env.entropy i % 256),
      { env with
        entropy := fun i => env.entropy (i + length)
        trace := env.trace ++ [Effect.random length] })
  else none

/-! ## Identifier generation -/

/-- The method `String.prototype.charAt`: the empty string outside the string. -/
def charAt (s : String) (i : Nat) : String :=
  match s.data.get? i with
  | some c => String.singleton c
  | none => ""

/-- The function `generateShortUrl`. -/
def generateShortUrl (P : Platform) (cfg : Config) (shortId : JsValue) : String :=
  let baseUrl :=
    if cfg.BASE_URL.data.getLast? = some '/'
    then String.mk cfg.BASE_URL.data.dropLast
    else cfg.BASE_URL
  baseUrl ++ "/" ++ P.coerceString shortId

/-- The function `generateShortId`; the result is `none` when the random source
throws, which the function does not catch. -/
def generateShortId (length : Nat) (env : Env) : Option String × Env :=
  let charactersLength := CHARSET.length
  match getRandomValues length env with
  | none => (none, env)
  | some (randomValues, env) =>
    let result := (List.range length).foldl
      (fun result i => result ++ charAt CHARSET (randomValues.getD i 0 % charactersLength)) ""
    (some result, env)

/-- The byte-to-character map of `generateShortId`: the character appended for a
random byte `b`. -/
def symbolOfByte (b : Nat) : String :=
  charAt CHARSET (b % CHARSET.length)

/-- The number of byte values (0 to 255) that `generateShortId` maps to the given
character. -/
def bytesMappingTo (symbol : String) : Nat :=
  ((List.range 256).filter (fun b => symbolOfByte b = symbol)).length

/-! ## Requests and responses -/

/-- The parts of a `Request` the handlers read. -/
structure Request where
  method : String
  /-- The path of `request.url`. -/
  pathname : String
  /-- The result of `await request.json()`; `none` when it rejects. -/
  json : Option JsValue

/-- The body of a `Response`: a literal text, or the text `JSON.stringify(value)`
of a value, kept as the value. -/
inductive Body where
  | text (content : String)
  | json (value : JsValue)

/-- A `Response`: body, status, and the two headers the handlers set. -/
structure Response where
  body : Body
  status : Nat
  contentType : Option String
  location : Option String

/-- The call `new Response(body, { status })` on a string body, which gets the
content type of plain text. -/
def Response.plain (body : String) (status : Nat) : Response :=
  { body := .text body, status := status,
    contentType := some "text/plain;charset=UTF-8", location := none }

/-- The call `new Response(JSON.stringify(value), { status, headers })` with
content type `application/json`. -/
def Response.ofJson (value : JsValue) (status : Nat) : Response :=
  { body := .json value, status := status,
    contentType := some "application/json", location := none }

/-- The call `Response.redirect(url, status)`; `none` when it throws because the
URL does not parse.  The location is the serialisation of the parsed URL. -/
def Response.redirect (P : Platform) (url : JsValue) (status : Nat) : Option Response :=
  match P.urlParse (P.coerceString url) with
  | some href =>
    some { body := .text "", status := status, contentType := none, location := some href }
  | none => none

/-- Property read `value.name`; `none` when it throws (`null` and `undefined`
have no properties).  Only names that no primitive wrapper or array defines are
read (`url`, `customId`, `adminKey`, `originalUrl`, `createdAt`, `visits`). -/
def getProperty (value : JsValue) (name : String) : Option JsValue :=
  match value with
  | .undefined => none
  | .null => none
  | .object fields => some (lookupField name fields)
  | _ => some .undefined

/-- The comparison `value !== s` for a string `s`. -/
def strictNeString (value : JsValue) (s : String) : Bool :=
  match value with
  | .string t => t != s
  | _ => true

/-- The record written for a new link. -/
def linkData (url : JsValue) (createdAt : String) : JsValue :=
  .object [("originalUrl", url), ("createdAt", .string createdAt), ("visits", .number 0)]

/-! ## Handlers -/

/-- How the do-while loop of `generateUniqueShortId` ends: by `return shortId`,
by running out of attempts, or by an exception of the random source. -/
inductive LoopEnd where
  | returned (shortId : String)
  | exhausted
  | threw

/-- The do-while loop of `generateUniqueShortId`, entered with `attempts`
collisions so far. -/
def generateUniqueShortId.loop (cfg : Config) (maxAttempts : Nat) (attempts : Nat) (env : Env) :
    LoopEnd × Env :=
  match generateShortId cfg.SHORT_ID_LENGTH env with
  | (none, env) => (.threw, env)
  | (some shortId, env) =>
    let (existingUrl, env) := kvGet shortId env
    if !lookupTruthy existingUrl then (.returned shortId, env)
    else
      let attempts := attempts + 1
      if attempts < maxAttempts then generateUniqueShortId.loop cfg maxAttempts attempts env
      else (.exhausted, env)
termination_by maxAttempts - attempts

/-- The function `generateUniqueShortId`; the result is `none` when the random
source throws. -/
def generateUniqueShortId (cfg : Config) (env : Env) : Option String × Env :=
  let attempts := 0
  let maxAttempts := 5
  match generateUniqueShortId.loop cfg maxAttempts attempts env with
  | (.returned shortId, env) => (some shortId, env)
  | (.threw, env) => (none, env)
  | (.exhausted, env) => generateShortId (cfg.SHORT_ID_LENGTH + 1) env

/-- The function `handleCreateShortlink`. -/
def handleCreateShortlink (P : Platform) (cfg : Config) (request : Request) (env : Env) :
    Response × Env :=
  if request.method ≠ "POST" then (Response.plain "Method Not Allowed" 405, env)
  else
    let failed := Response.ofJson (.object [("error", .string "处理请求时出错")]) 500
    match request.json with
    | none => (failed, env)
    | some parsed =>
      match getProperty parsed "url", getProperty parsed "customId",
            getProperty parsed "adminKey" with
      | some url, some customId, some adminKey =>
        if strictNeString adminKey cfg.ADMIN_KEY then
          (Response.ofJson (.object [("error", .string "无效的管理员密钥")]) 401, env)
        else if !url.truthy || !url.isString then
          (Response.ofJson (.object [("error", .string "URL是必需的")]) 400, env)
        else if !P.urlParses (P.coerceString url) then
          (Response.ofJson (.object [("error", .string "无效的URL格式")]) 400, env)
        else
          let (resolved, env) :=
            if customId.truthy then (some customId, env)
            else
              match generateUniqueShortId cfg env with
              | (some generated, env) => (some (JsValue.string generated), env)
              | (none, env) => (none, env)
          match resolved with
          | none => (failed, env)
          | some shortId =>
            let (conflict, env) :=
              if customId.truthy then
                let (existingUrl, env) := kvGet (P.coerceString shortId) env
                (lookupTruthy existingUrl, env)
              else (false, env)
            if conflict then
              (Response.ofJson (.object [("error", .string "自定义ID已被使用")]) 409, env)
            else
              let env := kvPut (P.coerceString shortId)
                (P.jsonStringify (linkData url env.now)) env
              (Response.ofJson
                (.object [("shortId", shortId),
                          ("shortUrl", .string (generateShortUrl P cfg shortId)),
                          ("originalUrl", url)]) 201, env)
      | _, _, _ => (failed, env)

/-- The statement `linkData.visits++` in strict mode; `none` when it throws
(`null` has no properties, and a property cannot be created on a primitive).
On an array the new property is not an element, so the array serialises and
reads as before. -/
def incrementVisits (P : Platform) : JsValue → Option JsValue
  | .undefined => none
  | .null => none
  | .bool _ => none
  | .number _ => none
  | .string _ => none
  | .array items => some (.array items)
  | .object fields =>
    some (.object (setField "visits" (P.increment (lookupField "visits" fields)) fields))

/-- The function `handleRedirect`. -/
def handleRedirect (P : Platform) (shortId : String) (env : Env) : Response × Env :=
  let (linkDataStr, env) := kvGet shortId env
  if !lookupTruthy linkDataStr then (Response.plain "短链接不存在" 404, env)
  else
    let failed := Response.plain "处理重定向时出错" 500
    match P.jsonParse (linkDataStr.getD "") with
    | none => (failed, env)
    | some parsed =>
      match incrementVisits P parsed with
      | none => (failed, env)
      | some updated =>
        let env := kvPut shortId (P.jsonStringify updated) env
        match getProperty updated "originalUrl" with
        | none => (failed, env)
        | some originalUrl =>
          match Response.redirect P originalUrl 302 with
          | none => (failed, env)
          | some response => (response, env)

/-- The function `handleGetLinkInfo`. -/
def handleGetLinkInfo (P : Platform) (cfg : Config) (shortId : String) (env : Env) :
    Response × Env :=
  let (linkDataStr, env) := kvGet shortId env
  if !lookupTruthy linkDataStr then
    (Response.ofJson (.object [("error", .string "短链接不存在")]) 404, env)
  else
    let failed := Response.ofJson (.object [("error", .string "获取链接信息时出错")]) 500
    match P.jsonParse (linkDataStr.getD "") with
    | none => (failed, env)
    | some parsed =>
      match getProperty parsed "originalUrl", getProperty parsed "createdAt",
            getProperty parsed "visits" with
      | some originalUrl, some createdAt, some visits =>
        (Response.ofJson
          (.object [("shortId", .string shortId),
                    ("shortUrl", .string (generateShortUrl P cfg (.string shortId))),
                    ("originalUrl", originalUrl),
                    ("createdAt", createdAt),
                    ("visits", visits)]) 200, env)
      | _, _, _ => (failed, env)

/-! ## Router -/

/-- The method `String.prototype.startsWith`. -/
def startsWith (s : String) (searchString : String) : Bool :=
  s.data.take searchString.length == searchString.data

/-- A line terminator (line feed, carriage return, line separator, paragraph
separator): the characters that `.` in a regular expression does not match. -/
def isLineTerminator (c : Char) : Bool :=
  c == Char.ofNat 0x0A || c == Char.ofNat 0x0D || c == Char.ofNat 0x2028
    || c == Char.ofNat 0x2029

/-- The call `path.match(/^\/api\/info\/(.+)$/)`: the text captured by the group,
or `none` when the path does not match.  The group takes one or more characters
other than line terminators, up to the end of the path. -/
def matchInfo (path : String) : Option String :=
  if startsWith path "/api/info/" then
    let rest := path.data.drop 10
    if rest ≠ [] ∧ rest.all (fun c => !isLineTerminator c) then some (String.mk rest)
    else none
  else none

/-- The function `handleRequest`; `homePage` is the text `generateHomePage()`
returns, a fixed HTML page. -/
def handleRequest (P : Platform) (cfg : Config) (homePage : String) (request : Request)
    (env : Env) : Response × Env :=
  let path := request.pathname
  if startsWith path "/api/" then
    if path = "/api/create" then handleCreateShortlink P cfg request env
    else
      match matchInfo path with
      | some identifier => handleGetLinkInfo P cfg identifier env
      | none => (Response.plain "Not Found" 404, env)
  else
    let shortId := String.mk (path.data.drop 1)
    if shortId ≠ "" then handleRedirect P shortId env
    else
      ({ body := .text homePage, status := 200, contentType := some "text/html",
         location := none }, env)

/-! ## Vocabulary of the statements -/

/-- The identifier a call of `generateShortId` returns (the empty string stands
in when the call throws). -/
def drawn (length : Nat) (env : Env) : String :=
  (generateShortId length env).1.getD ""

/-- The state after `k` rounds of the loop of `generateUniqueShortId`, none of
which returned: `k` identifiers of the default length were drawn and looked up. -/
def afterAttempts (cfg : Config) (env : Env) : Nat → Env
  | 0 => env
  | k + 1 =>
    (kvGet (drawn cfg.SHORT_ID_LENGTH (afterAttempts cfg env k))
      (generateShortId cfg.SHORT_ID_LENGTH (afterAttempts cfg env k)).2).2

/-- The identifier drawn in round `k` (counted from 0) of the loop of
`generateUniqueShortId` started in `env`. -/
def candidate (cfg : Config) (env : Env) (k : Nat) : String :=
  drawn cfg.SHORT_ID_LENGTH (afterAttempts cfg env k)

/-- The number of store lookups in a trace. -/
def lookups : List Effect → Nat
  | [] => 0
  | Effect.kvGet _ :: rest => lookups rest + 1
  | _ :: rest => lookups rest

/-- The number of store writes in a trace. -/
def writes : List Effect → Nat
  | [] => 0
  | Effect.kvPut _ _ :: rest => writes rest + 1
  | _ :: rest => writes rest

/-- The number of calls of the random source in a trace, one per generated
identifier. -/
def generations : List Effect → Nat
  | [] => 0
  | Effect.random _ :: rest => generations rest + 1
  | _ :: rest => generations rest

/-- The effects of the first `k` rounds of the loop of `generateUniqueShortId`:
each round draws an identifier and looks it up. -/
def attemptEffects (cfg : Config) (env : Env) : Nat → List Effect
  | 0 => []
  | k + 1 => attemptEffects cfg env k ++
      [Effect.random cfg.SHORT_ID_LENGTH, Effect.kvGet (candidate cfg env k)]

/-- The stored text is a well-formed Link Record: a non-empty text that parses to
an object whose `originalUrl` and `createdAt` are strings and whose `visits` is
an integer. -/
def IsLinkRecord (P : Platform) (stored : String) (fields : List (String × JsValue))
    (originalUrl createdAt : String) (visits : Int) : Prop :=
  stored ≠ "" ∧ P.jsonParse stored = some (.object fields) ∧
  lookupField "originalUrl" fields = .string originalUrl ∧
  lookupField "createdAt" fields = .string createdAt ∧
  lookupField "visits" fields = .number visits

/-- The configured base URL without its trailing slash: `base` does not end in
a slash, and the base URL is `base` or `base` followed by one slash. -/
def IsBaseWithoutSlash (cfg : Config) (base : String) : Prop :=
  (cfg.BASE_URL = base ∨ cfg.BASE_URL = base ++ "/") ∧ base.data.getLast? ≠ some '/'

/-- The configured base URL ends in two slashes. -/
def EndsInTwoSlashes (cfg : Config) : Prop :=
  ∃ inner, cfg.BASE_URL = inner ++ "//"

/-- The targets the router can dispatch a request to. -/
inductive Target where
  | create
  | info (identifier : String)
  | notFound
  | redirect (identifier : String)
  | landing

/-- The path starts with `/api/`. -/
def UnderApi (path : String) : Prop :=
  ∃ tail, path = "/api/" ++ tail

/-- The dispatch rule in the words of the specification: which target a path
goes to. -/
def RoutesTo (path : String) : Target → Prop
  | .create => path = "/api/create"
  | .info rest => path = "/api/info/" ++ rest ∧ rest ≠ ""
  | .notFound =>
    UnderApi path ∧ path ≠ "/api/create" ∧
      ¬ ∃ rest, rest ≠ "" ∧ path = "/api/info/" ++ rest
  | .redirect rest => ¬ UnderApi path ∧ path = "/" ++ rest ∧ rest ≠ ""
  | .landing => ¬ UnderApi path ∧ path = "/"

/-- What running a target means: the handler called, or the response built. -/
def dispatch (P : Platform) (cfg : Config) (homePage : String) (request : Request)
    (env : Env) : Target → Response × Env
  | .create => handleCreateShortlink P cfg request env
  | .info identifier => handleGetLinkInfo P cfg identifier env
  | .notFound => (Response.plain "Not Found" 404, env)
  | .redirect identifier => handleRedirect P identifier env
  | .landing =>
    ({ body := .text homePage, status := 200, contentType := some "text/html",
       location := none }, env)

/-- The branch `handleRequest` takes on a path. -/
def routeOf (path : String) : Target :=
  if startsWith path "/api/" then
    if path = "/api/create" then .create
    else
      match matchInfo path with
      | some identifier => .info identifier
      | none => .notFound
  else if String.mk (path.data.drop 1) ≠ "" then .redirect (String.mk (path.data.drop 1))
  else .landing

/-- The path of a parsed URL, as `new URL(request.url).pathname` yields it: it
begins with a slash and holds no line terminator (the URL parser removes line
feeds and carriage returns and percent-encodes the other two). -/
def IsPathname (path : String) : Prop :=
  path.data.head? = some '/' ∧ ∀ c ∈ path.data, isLineTerminator c = false

/-- A response whose body is JSON data with an `error` message field. -/
def IsJsonError (response : Response) : Prop :=
  ∃ message, response.body = .json (.object [("error", .string message)]) ∧
    response.contentType = some "application/json"

/-! ## Concrete states used in the examples -/

/-- The decimal digits of a visit count in the examples' serialisation: nothing
for zero, otherwise a space and the digits, with a minus sign if negative. -/
def demoVisitsText : JsValue → String
  | .number n =>
    if n = 0 then ""
    else if n < 0 then String.mk (' ' :: '-' :: Nat.toDigits 10 n.natAbs)
    else String.mk (' ' :: Nat.toDigits 10 n.natAbs)
  | _ => ""

/-- The visit count read back from its digits in the examples' serialisation. -/
def demoVisitsOf : List Char → Int
  | '-' :: digits => -((digits.foldl (fun acc c => acc * 10 + (c.toNat - 48)) 0 : Nat) : Int)
  | digits => ((digits.foldl (fun acc c => acc * 10 + (c.toNat - 48)) 0 : Nat) : Int)

/-- A small runtime for the examples.  URLs start with `https://` and hold no
space; serialising one adds a slash when nothing follows the host.  A record is
serialised as the letter `J`, its URL and its visit count (nothing for zero), and
parsing reads that back. -/
def demoPlatform : Platform :=
  { urlParse := fun s =>
      if s.data.take 8 = "https://".data ∧ ' ' ∉ s.data then
        if '/' ∈ s.data.drop 8 then some s else some (s ++ "/")
      else none
    jsonParse := fun s =>
      match s.data with
      | 'J' :: rest =>
        some (.object [("originalUrl", .string (String.mk (rest.takeWhile (fun c => c != ' ')))),
                       ("createdAt", .string "2024-01-01T00:00:00.000Z"),
                       ("visits",
                         .number (demoVisitsOf ((rest.dropWhile (fun c => c != ' ')).drop 1)))])
      | _ => none
    jsonStringify := fun v =>
      match v with
      | .object ((_, .string u) :: fields) =>
        "J" ++ u ++ demoVisitsText (lookupField "visits" fields)
      | _ => "J"
    toStr := fun _ => "[object Object]"
    incrementOther := fun v => v }

/-- A create request with the configured admin key, a valid URL and no custom
identifier. -/
def plainCreate : Request :=
  { method := "POST"
    pathname := "/api/create"
    json := some (.object [("url", .string "https://example.com"),
                           ("adminKey", .string "your-admin-key-here")]) }

/-- A create request with the configured admin key, a valid URL and the custom
identifier `promo`. -/
def customCreate : Request :=
  { method := "POST"
    pathname := "/api/create"
    json := some (.object [("url", .string "https://example.com"),
                           ("customId", .string "promo"),
                           ("adminKey", .string "your-admin-key-here")]) }

/-- A create request with a wrong admin key. -/
def wrongKeyCreate : Request :=
  { method := "POST"
    pathname := "/api/create"
    json := some (.object [("url", .string "not-a-url"),
                           ("customId", .string "promo"),
                           ("adminKey", .string "guess")]) }

/-- An empty store and a random source that delivers zero bytes only. -/
def emptyEnv : Env :=
  { SHORTLINK_KV := fun _ => none
    entropy := fun _ => 0
    now := "2024-01-01T00:00:00.000Z"
    trace := [] }

/-- A store holding records under `AAAAAA`, `AAAAAAA` and `promo`, and a random
source that delivers zero bytes only. -/
def crowdedEnv : Env :=
  { SHORTLINK_KV := fun k =>
      if k = "AAAAAA" ∨ k = "AAAAAAA" ∨ k = "promo" then some "Jhttps://example.org" else none
    entropy := fun _ => 0
    now := "2024-01-01T00:00:00.000Z"
    trace := [] }

/-- A store in which `promo` holds a record visited 2^53 times. -/
def saturatedEnv : Env :=
  { SHORTLINK_KV := fun k =>
      if k = "promo" then some "Jhttps://example.org/ 9007199254740992" else none
    entropy := fun _ => 0
    now := "2024-01-01T00:00:00.000Z"
    trace := [] }

/-- A store in which `promo` is a key holding the empty string. -/
def reservedEnv : Env :=
  { SHORTLINK_KV := fun k => if k = "promo" then some "" else none
    entropy := fun _ => 0
    now := "2024-01-01T00:00:00.000Z"
    trace := [] }

/-- A store in which `AAAAAA` is a key holding the empty string, and a random
source that delivers zero bytes only. -/
def emptyValueEnv : Env :=
  { SHORTLINK_KV := fun k => if k = "AAAAAA" then some "" else none
    entropy := fun _ => 0
    now := "2024-01-01T00:00:00.000Z"
    trace := [] }

/-- A GET request to the create path. -/
def getCreate : Request :=
  { method := "GET", pathname := "/api/create", json := none }

/-- A GET request to an unknown path under `/api/`. -/
def getUnknownApi : Request :=
  { method := "GET", pathname := "/api/stats", json := none }

/-! ## Identifier generation: auxiliary facts -/

theorem CHARSET_length : CHARSET.length = 62 := by decide

theorem charAt_CHARSET (j : Nat) (hj : j < 62) :
    charAt CHARSET j = String.singleton (CHARSET.data.getD j 'A') := by
  have hlen : j < CHARSET.data.length := by
    have : CHARSET.data.length = 62 := CHARSET_length
    omega
  unfold charAt
  rw [List.get?_eq_get hlen, List.getD_eq_getElem _ _ hlen]
  rfl

theorem foldl_append_singleton (f : Nat → Char) (g : Nat → String) :
    ∀ (l : List Nat) (init : String), (∀ i ∈ l, g i = String.singleton (f i)) →
      (l.foldl (fun result i => result ++ g i) init).data = init.data ++ l.map f := by
  intro l
  induction l with
  | nil => intro init _; simp
  | cons a rest ih =>
    intro init h
    rw [List.foldl_cons, ih (init ++ g a) (fun i hi => h i (List.mem_cons_of_mem _ hi))]
    rw [String.data_append, h a (List.mem_cons_self _ _)]
    simp [String.singleton]

/-- Within the quota of the random source `generateShortId` returns. -/
theorem generateShortId_eq (length : Nat) (env : Env) (hlen : length ≤ 65536) :
    generateShortId length env =
      (some (drawn length env),
        { env with
          entropy := fun i => env.entropy (i + length)
          trace := env.trace ++ [Effect.random length] }) := by
  simp [drawn, generateShortId, getRandomValues, hlen]

/-- Beyond the quota of the random source `generateShortId` throws. -/
theorem generateShortId_throws (length : Nat) (env : Env) (hlen : 65536 < length) :
    generateShortId length env = (none, env) := by
  simp [generateShortId, getRandomValues, Nat.not_le.mpr hlen]

theorem drawn_data (length : Nat) (env : Env) (hlen : length ≤ 65536) :
    (drawn length env).data =
      (List.range length).map (fun i => CHARSET.data.getD (env.entropy i % 256 % 62) 'A') := by
  unfold drawn generateShortId getRandomValues
  simp only [CHARSET_length, hlen, if_true, Option.getD_some]
  have h := foldl_append_singleton
    (fun i => CHARSET.data.getD (env.entropy i % 256 % 62) 'A')
    (fun i => charAt CHARSET
      (((List.range length).map (fun i => env.entropy i % 256)).getD i 0 % 62))
    (List.range length) ""
    (by
      intro i hi
      have hi2 : i < length := List.mem_range.mp hi
      have hget : ((List.range length).map (fun i => env.entropy i % 256)).getD i 0
          = env.entropy i % 256 := by
        rw [List.getD_eq_getElem _ _ (by simpa using hi2)]
        simp
      simp only [hget]
      exact charAt_CHARSET _ (Nat.mod_lt _ (by decide)))
  simpa using h

theorem generateShortId_env (length : Nat) (env : Env) (hlen : length ≤ 65536) :
    (generateShortId length env).2 =
      { env with
        entropy := fun i => env.entropy (i + length)
        trace := env.trace ++ [Effect.random length] } := by
  rw [generateShortId_eq length env hlen]

theorem generateShortId_now (length : Nat) (env : Env) :
    (generateShortId length env).2.now = env.now := by
  by_cases hlen : length ≤ 65536
  · rw [generateShortId_eq length env hlen]
  · rw [generateShortId_throws length env (Nat.not_le.mp hlen)]

theorem CHARSET_alnum :
    ∀ j, j < 62 → ((CHARSET.data.getD j 'A').isUpper || (CHARSET.data.getD j 'A').isLower
      || (CHARSET.data.getD j 'A').isDigit) = true := by
  decide

theorem drawn_length (length : Nat) (env : Env) (hlen : length ≤ 65536) :
    (drawn length env).length = length := by
  show (drawn length env).data.length = length
  rw [drawn_data length env hlen]
  simp

theorem drawn_alnum (length : Nat) (env : Env) (hlen : length ≤ 65536) :
    ∀ c ∈ (drawn length env).data, c.isUpper ∨ c.isLower ∨ c.isDigit := by
  intro c hc
  rw [drawn_data length env hlen] at hc
  obtain ⟨i, _, rfl⟩ := List.mem_map.mp hc
  have h := CHARSET_alnum (env.entropy i % 256 % 62) (Nat.mod_lt _ (by decide))
  simpa [Bool.or_eq_true, or_assoc] using h

/-! ## The retry loop: auxiliary facts -/

theorem afterAttempts_kv (cfg : Config) (env : Env) (k : Nat)
    (hquota : cfg.SHORT_ID_LENGTH ≤ 65536) :
    (afterAttempts cfg env k).SHORTLINK_KV = env.SHORTLINK_KV := by
  induction k with
  | zero => rfl
  | succ k ih => simpa [afterAttempts, kvGet, generateShortId_env _ _ hquota] using ih

theorem afterAttempts_now (cfg : Config) (env : Env) (k : Nat)
    (hquota : cfg.SHORT_ID_LENGTH ≤ 65536) :
    (afterAttempts cfg env k).now = env.now := by
  induction k with
  | zero => rfl
  | succ k ih => simpa [afterAttempts, kvGet, generateShortId_env _ _ hquota] using ih

theorem afterAttempts_trace (cfg : Config) (env : Env) (k : Nat)
    (hquota : cfg.SHORT_ID_LENGTH ≤ 65536) :
    (afterAttempts cfg env k).trace = env.trace ++ attemptEffects cfg env k := by
  induction k with
  | zero => simp [afterAttempts, attemptEffects]
  | succ k ih =>
    simp [afterAttempts, attemptEffects, kvGet, generateShortId_env _ _ hquota, ih, candidate]

theorem afterAttempts_entropy (cfg : Config) (env : Env) (k : Nat)
    (hquota : cfg.SHORT_ID_LENGTH ≤ 65536) :
    (afterAttempts cfg env k).entropy
      = fun i => env.entropy (i + k * cfg.SHORT_ID_LENGTH) := by
  induction k with
  | zero => simp [afterAttempts]
  | succ k ih =>
    simp only [afterAttempts, kvGet, generateShortId_env _ _ hquota, ih]
    funext i
    congr 1
    ring

theorem afterAttempts_shift (cfg : Config) (env : Env) (k : Nat) :
    afterAttempts cfg (afterAttempts cfg env 1) k = afterAttempts cfg env (k + 1) := by
  induction k with
  | zero => rfl
  | succ k ih =>
    show (kvGet _ _).2 = (kvGet _ _).2
    rw [ih]

theorem candidate_shift (cfg : Config) (env : Env) (k : Nat) :
    candidate cfg (afterAttempts cfg env 1) k = candidate cfg env (k + 1) := by
  unfold candidate
  rw [afterAttempts_shift]

theorem lookups_append (xs ys : List Effect) : lookups (xs ++ ys) = lookups xs + lookups ys := by
  induction xs with
  | nil => simp [lookups]
  | cons x rest ih => cases x <;> simp [lookups, ih, Nat.add_right_comm]

theorem writes_append (xs ys : List Effect) : writes (xs ++ ys) = writes xs + writes ys := by
  induction xs with
  | nil => simp [writes]
  | cons x rest ih => cases x <;> simp [writes, ih, Nat.add_right_comm]

theorem generations_append (xs ys : List Effect) :
    generations (xs ++ ys) = generations xs + generations ys := by
  induction xs with
  | nil => simp [generations]
  | cons x rest ih => cases x <;> simp [generations, ih, Nat.add_right_comm]

theorem attemptEffects_counts (cfg : Config) (env : Env) (k : Nat) :
    lookups (attemptEffects cfg env k) = k ∧ generations (attemptEffects cfg env k) = k ∧
    writes (attemptEffects cfg env k) = 0 := by
  induction k with
  | zero => simp [attemptEffects, lookups, generations, writes]
  | succ k ih =>
    simp [attemptEffects, lookups_append, generations_append, writes_append, lookups,
      generations, writes, ih]

/-- One round of the loop: draw, look up, return or go round again. -/
theorem loop_step (cfg : Config) (maxAttempts attempts : Nat) (env : Env)
    (hquota : cfg.SHORT_ID_LENGTH ≤ 65536) :
    generateUniqueShortId.loop cfg maxAttempts attempts env =
      if lookupTruthy (env.SHORTLINK_KV (candidate cfg env 0)) = false then
        (.returned (candidate cfg env 0), afterAttempts cfg env 1)
      else if attempts + 1 < maxAttempts then
        generateUniqueShortId.loop cfg maxAttempts (attempts + 1) (afterAttempts cfg env 1)
      else (.exhausted, afterAttempts cfg env 1) := by
  rw [generateUniqueShortId.loop]
  simp only [generateShortId_eq _ _ hquota, kvGet, afterAttempts, candidate]
  cases h : lookupTruthy (env.SHORTLINK_KV (drawn cfg.SHORT_ID_LENGTH env)) <;> simp

/-- Beyond the quota the first draw of the loop throws. -/
theorem loop_threw (cfg : Config) (maxAttempts attempts : Nat) (env : Env)
    (hquota : 65536 < cfg.SHORT_ID_LENGTH) :
    generateUniqueShortId.loop cfg maxAttempts attempts env = (.threw, env) := by
  rw [generateUniqueShortId.loop]
  simp only [generateShortId_throws _ _ hquota]

/-- The loop entered with `attempts` collisions runs `max 1 (maxAttempts - attempts)`
rounds at most: it returns the first candidate whose lookup is falsy, or ends
after the last round with every lookup truthy. -/
theorem loop_spec (cfg : Config) (maxAttempts : Nat) (hquota : cfg.SHORT_ID_LENGTH ≤ 65536) :
    ∀ (d attempts : Nat) (env : Env), maxAttempts - attempts = d →
      (∃ k, k < max 1 d ∧
        (∀ j, j < k → lookupTruthy (env.SHORTLINK_KV (candidate cfg env j)) = true) ∧
        lookupTruthy (env.SHORTLINK_KV (candidate cfg env k)) = false ∧
        generateUniqueShortId.loop cfg maxAttempts attempts env
          = (.returned (candidate cfg env k), afterAttempts cfg env (k + 1)))
      ∨ ((∀ j, j < max 1 d → lookupTruthy (env.SHORTLINK_KV (candidate cfg env j)) = true) ∧
        generateUniqueShortId.loop cfg maxAttempts attempts env
          = (.exhausted, afterAttempts cfg env (max 1 d))) := by
  intro d
  induction d with
  | zero =>
    intro attempts env hd
    rw [loop_step _ _ _ _ hquota]
    cases h : lookupTruthy (env.SHORTLINK_KV (candidate cfg env 0))
    · left
      exact ⟨0, by decide, fun j hj => absurd hj (Nat.not_lt_zero j), h, by simp⟩
    · right
      have hno : ¬ attempts + 1 < maxAttempts := by omega
      refine ⟨fun j hj => ?_, by simp [hno]⟩
      have : j = 0 := by
        have : max 1 0 = 1 := by decide
        omega
      subst this
      exact h
  | succ d ih =>
    intro attempts env hd
    rw [loop_step _ _ _ _ hquota]
    cases h : lookupTruthy (env.SHORTLINK_KV (candidate cfg env 0))
    · left
      refine ⟨0, ?_, fun j hj => absurd hj (Nat.not_lt_zero j), h, by simp⟩
      have : 1 ≤ max 1 (d + 1) := le_max_left _ _
      omega
    · by_cases hlt : attempts + 1 < maxAttempts
      · have hd1 : maxAttempts - (attempts + 1) = d := by omega
        have hmax : max 1 d + 1 = max 1 (d + 1) := by
          have h1 : max 1 d = d := max_eq_right (by omega)
          have h2 : max 1 (d + 1) = d + 1 := max_eq_right (by omega)
          omega
        have hkv := afterAttempts_kv cfg env 1 hquota
        rcases ih (attempts + 1) (afterAttempts cfg env 1) hd1 with
          ⟨k, hk, hbefore, hfree, hres⟩ | ⟨hall, hres⟩
        · left
          refine ⟨k + 1, by omega, ?_, ?_, ?_⟩
          · intro j hj
            cases j with
            | zero => exact h
            | succ j =>
              have := hbefore j (by omega)
              rwa [hkv, candidate_shift] at this
          · rwa [hkv, candidate_shift] at hfree
          · simp only [hlt, if_true, Bool.true_eq_false, if_false]
            rw [hres, candidate_shift, afterAttempts_shift]
        · right
          refine ⟨?_, ?_⟩
          · intro j hj
            cases j with
            | zero => exact h
            | succ j =>
              have := hall j (by omega)
              rwa [hkv, candidate_shift] at this
          · simp only [hlt, if_true, Bool.true_eq_false, if_false]
            rw [hres, afterAttempts_shift, hmax]
      · right
        have hd0 : d = 0 := by omega
        subst hd0
        refine ⟨fun j hj => ?_, by simp [hlt]⟩
        have : j = 0 := by
          have : max 1 (0 + 1) = 1 := by decide
          omega
        subst this
        exact h

theorem candidate_length (cfg : Config) (env : Env) (k : Nat)
    (hquota : cfg.SHORT_ID_LENGTH ≤ 65536) :
    (candidate cfg env k).length = cfg.SHORT_ID_LENGTH :=
  drawn_length _ _ hquota

theorem mem_attemptEffects_kvGet (cfg : Config) (env : Env) (key : String)
    (hquota : cfg.SHORT_ID_LENGTH ≤ 65536) :
    ∀ k, Effect.kvGet key ∈ attemptEffects cfg env k → key.length = cfg.SHORT_ID_LENGTH := by
  intro k
  induction k with
  | zero => intro h; simp [attemptEffects] at h
  | succ k ih =>
    intro h
    simp only [attemptEffects, List.mem_append, List.mem_cons, List.mem_singleton,
      List.not_mem_nil, or_false] at h
    rcases h with h | h | h
    · exact ih h
    · cases h
    · injection h with h
      rw [h]
      exact candidate_length cfg env k hquota

/-- What `generateUniqueShortId` does when the default length is within the
quota of the random source, by cases on the lookups of the five candidates. -/
theorem generateUniqueShortId_cases (cfg : Config) (env : Env)
    (hquota : cfg.SHORT_ID_LENGTH ≤ 65536) :
    (∃ k, k < 5 ∧
        (∀ j, j < k → lookupTruthy (env.SHORTLINK_KV (candidate cfg env j)) = true) ∧
        lookupTruthy (env.SHORTLINK_KV (candidate cfg env k)) = false ∧
        generateUniqueShortId cfg env
          = (some (candidate cfg env k), afterAttempts cfg env (k + 1)))
    ∨ ((∀ j, j < 5 → lookupTruthy (env.SHORTLINK_KV (candidate cfg env j)) = true) ∧
        generateUniqueShortId cfg env
          = generateShortId (cfg.SHORT_ID_LENGTH + 1) (afterAttempts cfg env 5)) := by
  have hmax : max 1 5 = 5 := by decide
  rcases loop_spec cfg 5 hquota 5 0 env rfl with
    ⟨k, hk, hbefore, hfree, hres⟩ | ⟨hall, hres⟩
  · left
    rw [hmax] at hk
    exact ⟨k, hk, hbefore, hfree, by simp [generateUniqueShortId, hres]⟩
  · right
    rw [hmax] at hall hres
    exact ⟨hall, by simp [generateUniqueShortId, hres]⟩

/-- Beyond the quota `generateUniqueShortId` throws at its first draw. -/
theorem generateUniqueShortId_threw (cfg : Config) (env : Env)
    (hquota : 65536 < cfg.SHORT_ID_LENGTH) :
    generateUniqueShortId cfg env = (none, env) := by
  simp [generateUniqueShortId, loop_threw cfg 5 0 env hquota]

theorem generateUniqueShortId_now (cfg : Config) (env : Env) :
    (generateUniqueShortId cfg env).2.now = env.now := by
  by_cases hquota : cfg.SHORT_ID_LENGTH ≤ 65536
  · rcases generateUniqueShortId_cases cfg env hquota with ⟨k, _, _, _, hres⟩ | ⟨_, hres⟩
    · rw [hres]; exact afterAttempts_now cfg env (k + 1) hquota
    · rw [hres, generateShortId_now]; exact afterAttempts_now cfg env 5 hquota
  · rw [generateUniqueShortId_threw cfg env (Nat.not_le.mp hquota)]

theorem generateUniqueShortId_alnum (cfg : Config) (env : Env) (shortId : String)
    (hquota : cfg.SHORT_ID_LENGTH < 65536)
    (h : (generateUniqueShortId cfg env).1 = some shortId) :
    ∀ c ∈ shortId.data, c.isUpper ∨ c.isLower ∨ c.isDigit := by
  rcases generateUniqueShortId_cases cfg env (Nat.le_of_lt hquota) with
    ⟨k, _, _, _, hres⟩ | ⟨_, hres⟩
  · rw [hres] at h
    injection h with h
    subst h
    exact drawn_alnum _ _ (Nat.le_of_lt hquota)
  · rw [hres, generateShortId_eq _ _ hquota] at h
    injection h with h
    subst h
    exact drawn_alnum _ _ hquota

/-! ## Handlers: auxiliary facts -/

theorem strictNeString_iff (v : JsValue) (s : String) :
    strictNeString v s = true ↔ v ≠ .string s := by
  cases v <;> simp [strictNeString]

theorem lookupTruthy_false_iff (r : Option String) :
    lookupTruthy r = false ↔ r = none ∨ r = some "" := by
  cases r <;> simp [lookupTruthy]

theorem lookupTruthy_some (v : String) (hv : v ≠ "") : lookupTruthy (some v) = true := by
  simp [lookupTruthy, hv]

theorem lookupField_setField_same (name : String) (v : JsValue) :
    ∀ fields, lookupField name (setField name v fields) = v := by
  intro fields
  induction fields with
  | nil => simp [setField, lookupField]
  | cons kv rest ih =>
    obtain ⟨k, w⟩ := kv
    by_cases h : k = name
    · simp [setField, lookupField, h]
    · simp [setField, lookupField, h, ih]

theorem lookupField_setField_other (name other : String) (v : JsValue) (h : other ≠ name) :
    ∀ fields, lookupField other (setField name v fields) = lookupField other fields := by
  intro fields
  induction fields with
  | nil => simp [setField, lookupField, Ne.symm h]
  | cons kv rest ih =>
    obtain ⟨k, w⟩ := kv
    by_cases hk : k = name
    · subst hk
      simp [setField, lookupField, Ne.symm h]
    · by_cases ho : k = other
      · subst ho
        simp [setField, lookupField, hk]
      · simp [setField, lookupField, hk, ho, ih]

/-- The redirect handler on a key without a truthy stored value. -/
theorem handleRedirect_absent (P : Platform) (shortId : String) (env : Env)
    (h : lookupTruthy (env.SHORTLINK_KV shortId) = false) :
    handleRedirect P shortId env =
      (Response.plain "短链接不存在" 404,
        { env with trace := env.trace ++ [Effect.kvGet shortId] }) := by
  simp [handleRedirect, kvGet, h]

/-- The redirect handler on a key holding a record whose URL parses. -/
theorem handleRedirect_record (P : Platform) (shortId : String) (env : Env)
    (stored : String) (fields : List (String × JsValue)) (u : String)
    (hstored : env.SHORTLINK_KV shortId = some stored) (hne : stored ≠ "")
    (hparse : P.jsonParse stored = some (.object fields))
    (hurl : lookupField "originalUrl" fields = .string u) :
    handleRedirect P shortId env =
      (match P.urlParse u with
        | some href =>
          { body := .text "", status := 302, contentType := none, location := some href }
        | none => Response.plain "处理重定向时出错" 500,
       kvPut shortId
        (P.jsonStringify (.object
          (setField "visits" (P.increment (lookupField "visits" fields)) fields)))
        { env with trace := env.trace ++ [Effect.kvGet shortId] }) := by
  have hurl2 : lookupField "originalUrl"
      (setField "visits" (P.increment (lookupField "visits" fields)) fields) = .string u := by
    rw [lookupField_setField_other _ _ _ (by decide)]
    exact hurl
  simp only [handleRedirect, kvGet, hstored, lookupTruthy_some stored hne, Option.getD_some,
    hparse, incrementVisits, getProperty, hurl2, Response.redirect, Platform.coerceString]
  cases P.urlParse u <;> rfl

/-- The info handler never changes anything but the trace. -/
theorem handleGetLinkInfo_env (P : Platform) (cfg : Config) (shortId : String) (env : Env) :
    (handleGetLinkInfo P cfg shortId env).2 =
      { env with trace := env.trace ++ [Effect.kvGet shortId] } := by
  unfold handleGetLinkInfo
  simp only [kvGet]
  split
  · rfl
  · split
    · rfl
    · split <;> rfl

/-- The response of the info handler is a function of the stored value. -/
theorem handleGetLinkInfo_congr (P : Platform) (cfg : Config) (shortId : String)
    (env other : Env) (h : other.SHORTLINK_KV shortId = env.SHORTLINK_KV shortId) :
    (handleGetLinkInfo P cfg shortId other).1 = (handleGetLinkInfo P cfg shortId env).1 := by
  unfold handleGetLinkInfo
  simp only [kvGet, h]
  split
  · rfl
  · split
    · rfl
    · split <;> rfl

theorem iterate_info_kv (P : Platform) (cfg : Config) (shortId : String) (env : Env) (n : Nat) :
    ((fun e => (handleGetLinkInfo P cfg shortId e).2)^[n] env).SHORTLINK_KV
      = env.SHORTLINK_KV := by
  induction n generalizing env with
  | zero => rfl
  | succ n ih =>
    rw [Function.iterate_succ_apply, ih, handleGetLinkInfo_env]

/-- The Create Handler on a validated request that carries a custom identifier. -/
theorem handleCreateShortlink_custom (P : Platform) (cfg : Config) (request : Request)
    (env : Env) (parsed url customId adminKey : JsValue) (u : String)
    (hmethod : request.method = "POST") (hjson : request.json = some parsed)
    (h1 : getProperty parsed "url" = some url)
    (h2 : getProperty parsed "customId" = some customId)
    (h3 : getProperty parsed "adminKey" = some adminKey)
    (hkey : strictNeString adminKey cfg.ADMIN_KEY = false)
    (hurl : url = .string u) (hu : u ≠ "") (hvalid : P.urlParses u = true)
    (hc : customId.truthy = true) :
    handleCreateShortlink P cfg request env =
      if lookupTruthy (env.SHORTLINK_KV (P.coerceString customId)) = true then
        (Response.ofJson (.object [("error", .string "自定义ID已被使用")]) 409,
          { env with trace := env.trace ++ [Effect.kvGet (P.coerceString customId)] })
      else
        (Response.ofJson
          (.object [("shortId", customId),
                    ("shortUrl", .string (generateShortUrl P cfg customId)),
                    ("originalUrl", .string u)]) 201,
          kvPut (P.coerceString customId) (P.jsonStringify (linkData (.string u) env.now))
            { env with trace := env.trace ++ [Effect.kvGet (P.coerceString customId)] }) := by
  subst hurl
  have ht : (JsValue.string u).truthy = true := by simp [JsValue.truthy, hu]
  have hs : (JsValue.string u).isString = true := rfl
  have hcs : P.coerceString (.string u) = u := rfl
  simp only [handleCreateShortlink, hmethod, hjson, h1, h2, h3, hkey, hc, kvGet, ht, hs, hcs,
    hvalid]
  cases hl : lookupTruthy (env.SHORTLINK_KV (P.coerceString customId)) <;> simp [hl]

/-- The Create Handler on a validated request without a custom identifier. -/
theorem handleCreateShortlink_generated (P : Platform) (cfg : Config) (request : Request)
    (env : Env) (parsed url customId adminKey : JsValue) (u : String)
    (hmethod : request.method = "POST") (hjson : request.json = some parsed)
    (h1 : getProperty parsed "url" = some url)
    (h2 : getProperty parsed "customId" = some customId)
    (h3 : getProperty parsed "adminKey" = some adminKey)
    (hkey : strictNeString adminKey cfg.ADMIN_KEY = false)
    (hurl : url = .string u) (hu : u ≠ "") (hvalid : P.urlParses u = true)
    (hc : customId.truthy = false) :
    handleCreateShortlink P cfg request env =
      match generateUniqueShortId cfg env with
      | (some generated, after) =>
        (Response.ofJson
          (.object [("shortId", .string generated),
                    ("shortUrl", .string (generateShortUrl P cfg (.string generated))),
                    ("originalUrl", .string u)]) 201,
          kvPut generated (P.jsonStringify (linkData (.string u) after.now)) after)
      | (none, after) =>
        (Response.ofJson (.object [("error", .string "处理请求时出错")]) 500, after) := by
  subst hurl
  have ht : (JsValue.string u).truthy = true := by simp [JsValue.truthy, hu]
  have hs : (JsValue.string u).isString = true := rfl
  have hcs : ∀ t, P.coerceString (.string t) = t := fun _ => rfl
  simp only [handleCreateShortlink, hmethod, hjson, h1, h2, h3, hkey, hc, ht, hs, hcs, hvalid]
  rcases hg : generateUniqueShortId cfg env with ⟨_ | generated, after⟩ <;> simp [hcs]

/-- The Create Handler on a validated request without a custom identifier, when
the identifier generation returns. -/
theorem handleCreateShortlink_generated_ok (P : Platform) (cfg : Config) (request : Request)
    (env : Env) (parsed url customId adminKey : JsValue) (u generated : String) (after : Env)
    (hmethod : request.method = "POST") (hjson : request.json = some parsed)
    (h1 : getProperty parsed "url" = some url)
    (h2 : getProperty parsed "customId" = some customId)
    (h3 : getProperty parsed "adminKey" = some adminKey)
    (hkey : strictNeString adminKey cfg.ADMIN_KEY = false)
    (hurl : url = .string u) (hu : u ≠ "") (hvalid : P.urlParses u = true)
    (hc : customId.truthy = false)
    (hgen : generateUniqueShortId cfg env = (some generated, after)) :
    handleCreateShortlink P cfg request env =
      (Response.ofJson
        (.object [("shortId", .string generated),
                  ("shortUrl", .string (generateShortUrl P cfg (.string generated))),
                  ("originalUrl", .string u)]) 201,
        kvPut generated (P.jsonStringify (linkData (.string u) env.now)) after) := by
  have hnow : after.now = env.now := by
    have h := generateUniqueShortId_now cfg env
    rw [hgen] at h
    exact h
  rw [handleCreateShortlink_generated P cfg request env parsed url customId adminKey u hmethod
    hjson h1 h2 h3 hkey hurl hu hvalid hc, hgen]
  simp only [hnow]

/-- A call of the Create Handler that answers 201 passed every check. -/
theorem handleCreateShortlink_created_inv (P : Platform) (cfg : Config) (request : Request)
    (env : Env) (h : (handleCreateShortlink P cfg request env).1.status = 201) :
    ∃ parsed customId adminKey u,
      request.method = "POST" ∧ request.json = some parsed ∧
      getProperty parsed "url" = some (.string u) ∧
      getProperty parsed "customId" = some customId ∧
      getProperty parsed "adminKey" = some adminKey ∧
      strictNeString adminKey cfg.ADMIN_KEY = false ∧ u ≠ "" ∧ P.urlParses u = true := by
  unfold handleCreateShortlink at h
  by_cases hmethod : request.method = "POST"
  swap
  · simp [hmethod, Response.plain] at h
  cases hjson : request.json with
  | none => simp [hmethod, hjson, Response.ofJson] at h
  | some parsed =>
    cases h1 : getProperty parsed "url" with
    | none => simp [hmethod, hjson, h1, Response.ofJson] at h
    | some url =>
      cases h2 : getProperty parsed "customId" with
      | none => simp [hmethod, hjson, h1, h2, Response.ofJson] at h
      | some customId =>
        cases h3 : getProperty parsed "adminKey" with
        | none => simp [hmethod, hjson, h1, h2, h3, Response.ofJson] at h
        | some adminKey =>
          cases hkey : strictNeString adminKey cfg.ADMIN_KEY with
          | true => simp [hmethod, hjson, h1, h2, h3, hkey, Response.ofJson] at h
          | false =>
            cases url with
            | string u =>
              by_cases hu : u = ""
              · simp [hmethod, hjson, h1, h2, h3, hkey, hu, Response.ofJson,
                  JsValue.truthy] at h
              · cases hvalid : P.urlParses u with
                | false =>
                  simp [hmethod, hjson, h1, h2, h3, hkey, hu, Response.ofJson,
                    JsValue.truthy, JsValue.isString, Platform.coerceString, hvalid] at h
                | true =>
                  exact ⟨parsed, customId, adminKey, u, hmethod, rfl, h1, h2, h3, hkey, hu,
                    hvalid⟩
            | _ =>
              simp [hmethod, hjson, h1, h2, h3, hkey, Response.ofJson,
                JsValue.truthy, JsValue.isString] at h

theorem generateShortUrl_base (P : Platform) (cfg : Config) (shortId : JsValue)
    (hbase : ¬ EndsInTwoSlashes cfg) :
    ∃ base, IsBaseWithoutSlash cfg base ∧
      generateShortUrl P cfg shortId = base ++ "/" ++ P.coerceString shortId := by
  unfold generateShortUrl
  by_cases h : cfg.BASE_URL.data.getLast? = some '/'
  · have hsplit : cfg.BASE_URL.data.dropLast ++ ['/'] = cfg.BASE_URL.data :=
      List.dropLast_append_getLast? '/' (by simp [h])
    refine ⟨String.mk cfg.BASE_URL.data.dropLast, ⟨Or.inr ?_, ?_⟩, by simp [h]⟩
    · apply String.ext
      rw [String.data_append]
      exact hsplit.symm
    · intro hlast
      apply hbase
      refine ⟨String.mk cfg.BASE_URL.data.dropLast.dropLast, String.ext ?_⟩
      have hinner : cfg.BASE_URL.data.dropLast.dropLast ++ ['/'] = cfg.BASE_URL.data.dropLast :=
        List.dropLast_append_getLast? '/' (by simpa using hlast)
      rw [String.data_append]
      show cfg.BASE_URL.data = cfg.BASE_URL.data.dropLast.dropLast ++ ['/', '/']
      conv_lhs => rw [← hsplit, ← hinner]
      simp
  · exact ⟨cfg.BASE_URL, ⟨Or.inl rfl, h⟩, by simp [h]⟩

/-- Following a link right after a record for a parseable URL was written under
its key. -/
theorem handleRedirect_after_put (P : Platform) (key u href now : String) (env : Env)
    (hempty : P.jsonParse "" = none)
    (hround : P.jsonParse (P.jsonStringify (linkData (.string u) now))
      = some (linkData (.string u) now))
    (hvalid : P.urlParse u = some href) :
    (handleRedirect P key
      (kvPut key (P.jsonStringify (linkData (.string u) now)) env)).1.status = 302 ∧
    (handleRedirect P key
      (kvPut key (P.jsonStringify (linkData (.string u) now)) env)).1.location
      = some href := by
  have hne : P.jsonStringify (linkData (.string u) now) ≠ "" := by
    intro h
    rw [h, hempty] at hround
    cases hround
  have hrun := handleRedirect_record P key
    (kvPut key (P.jsonStringify (linkData (.string u) now)) env)
    (P.jsonStringify (linkData (.string u) now))
    [("originalUrl", .string u), ("createdAt", .string now), ("visits", .number 0)] u
    (by simp [kvPut]) hne hround (by simp [lookupField])
  rw [hrun, hvalid]
  exact ⟨rfl, rfl⟩

theorem urlParses_iff (P : Platform) (u : String) :
    P.urlParses u = true ↔ ∃ href, P.urlParse u = some href := by
  unfold Platform.urlParses
  cases P.urlParse u <;> simp

theorem demoPlatform_roundtrip (u now : String) (hnow : now = "2024-01-01T00:00:00.000Z")
    (hvalid : demoPlatform.urlParses u = true) :
    demoPlatform.jsonParse (demoPlatform.jsonStringify (linkData (.string u) now))
      = some (linkData (.string u) now) := by
  subst hnow
  have hspace : ' ' ∉ u.data := by
    by_contra hmem
    simp [Platform.urlParses, demoPlatform, hmem] at hvalid
  have htake : u.data.takeWhile (fun c => c != ' ') = u.data := by
    rw [List.takeWhile_eq_self_iff]
    intro c hc
    have : c ≠ ' ' := fun h => hspace (h ▸ hc)
    simpa using this
  have hdrop : u.data.dropWhile (fun c => c != ' ') = [] := by
    rw [List.dropWhile_eq_nil_iff]
    intro c hc
    have : c ≠ ' ' := fun h => hspace (h ▸ hc)
    simpa using this
  have hdata : ("J" ++ u ++ "").data = 'J' :: u.data := by
    simp only [String.data_append]
    simp
  have hstr : demoPlatform.jsonStringify (linkData (.string u) "2024-01-01T00:00:00.000Z")
      = "J" ++ u ++ "" := rfl
  rw [hstr]
  simp only [demoPlatform, hdata, htake, hdrop]
  rfl

theorem candidate_zero_entropy (cfg : Config) (env : Env) (k : Nat)
    (hquota : cfg.SHORT_ID_LENGTH ≤ 65536)
    (hzero : ∀ i, env.entropy i = 0) :
    (candidate cfg env k).data = List.replicate cfg.SHORT_ID_LENGTH 'A' := by
  unfold candidate
  rw [drawn_data _ _ hquota, afterAttempts_entropy _ _ _ hquota]
  simp only [hzero]
  apply List.ext_getElem
  · simp
  · intro i h1 h2
    simp
    rfl

theorem roundToDouble_exact (m : Int) (h : m.natAbs ≤ 2 ^ 53) : roundToDouble m = m := by
  rcases Nat.lt_or_eq_of_le h with hlt | heq
  · have hbits : droppedBits m.natAbs m.natAbs = 0 := by
      cases hm : m.natAbs with
      | zero => rfl
      | succ a =>
        rw [hm] at hlt
        show (if a + 1 < 2 ^ 53 then 0 else droppedBits a ((a + 1) / 2) + 1) = 0
        rw [if_pos hlt]
    unfold roundToDouble
    simp only [hbits, pow_zero, Nat.div_one, Nat.mod_one, Nat.mul_zero, Nat.mul_one]
    have hno : ¬ (1 < 0 ∨ (0 = 1 ∧ m.natAbs % 2 = 1)) := by omega
    rw [if_neg hno]
    by_cases hneg : m < 0
    · rw [if_pos hneg]; omega
    · rw [if_neg hneg]; omega
  · have hcases : m = 2 ^ 53 ∨ m = -(2 ^ 53) := by omega
    rcases hcases with rfl | rfl <;> decide

theorem generateUniqueShortId_emptyEnv :
    generateUniqueShortId CONFIG emptyEnv = (some "AAAAAA", afterAttempts CONFIG emptyEnv 1) := by
  have hquota : CONFIG.SHORT_ID_LENGTH ≤ 65536 := by decide
  have hc : candidate CONFIG emptyEnv 0 = "AAAAAA" :=
    String.ext (candidate_zero_entropy CONFIG emptyEnv 0 hquota (fun _ => rfl))
  unfold generateUniqueShortId
  simp only []
  rw [loop_step _ _ _ _ hquota, hc]
  rfl

theorem create_plain_emptyEnv :
    handleCreateShortlink demoPlatform CONFIG plainCreate emptyEnv =
      (Response.ofJson
        (.object [("shortId", .string "AAAAAA"),
                  ("shortUrl", .string "https://your-worker-domain.workers.dev/AAAAAA"),
                  ("originalUrl", .string "https://example.com")]) 201,
        kvPut "AAAAAA" "Jhttps://example.com" (afterAttempts CONFIG emptyEnv 1)) :=
  handleCreateShortlink_generated_ok demoPlatform CONFIG plainCreate emptyEnv
    (.object [("url", .string "https://example.com"),
              ("adminKey", .string "your-admin-key-here")])
    (.string "https://example.com") .undefined (.string "your-admin-key-here")
    "https://example.com" "AAAAAA" (afterAttempts CONFIG emptyEnv 1) rfl rfl rfl rfl rfl
    (by decide) rfl (by decide) (by decide) rfl generateUniqueShortId_emptyEnv

/-! ## Router: auxiliary facts -/

theorem startsWith_iff (s p : String) : startsWith s p = true ↔ ∃ tail, s = p ++ tail := by
  unfold startsWith
  rw [beq_iff_eq]
  constructor
  · intro h
    refine ⟨String.mk (s.data.drop p.length), String.ext ?_⟩
    rw [String.data_append]
    show s.data = p.data ++ List.drop p.length s.data
    conv_lhs => rw [← List.take_append_drop p.length s.data, h]
  · rintro ⟨tail, rfl⟩
    rw [String.data_append]
    exact List.take_left' rfl

theorem underApi_iff (path : String) : UnderApi path ↔ startsWith path "/api/" = true :=
  (startsWith_iff path "/api/").symm

theorem handleRequest_eq_dispatch (P : Platform) (cfg : Config) (homePage : String)
    (request : Request) (env : Env) :
    handleRequest P cfg homePage request env
      = dispatch P cfg homePage request env (routeOf request.pathname) := by
  unfold handleRequest routeOf
  simp only []
  split
  · split
    · rfl
    · split <;> rfl
  · split <;> rfl

theorem matchInfo_append (rest : String) (hrest : rest ≠ "")
    (hline : ∀ c ∈ rest.data, isLineTerminator c = false) :
    matchInfo ("/api/info/" ++ rest) = some rest := by
  have hstart : startsWith ("/api/info/" ++ rest) "/api/info/" = true :=
    (startsWith_iff _ _).mpr ⟨rest, rfl⟩
  have hdrop : ("/api/info/" ++ rest).data.drop 10 = rest.data := by
    rw [String.data_append]
    exact List.drop_left' rfl
  have hne : rest.data ≠ [] := fun h => hrest (String.ext h)
  have hall : rest.data.all (fun c => !isLineTerminator c) = true := by
    rw [List.all_eq_true]
    intro c hc
    simp [hline c hc]
  simp [matchInfo, hstart, hdrop, hne, hall]

theorem matchInfo_some (path identifier : String) (h : matchInfo path = some identifier) :
    path = "/api/info/" ++ identifier ∧ identifier ≠ "" := by
  unfold matchInfo at h
  by_cases hstart : startsWith path "/api/info/" = true
  · simp only [hstart, if_true] at h
    by_cases hrest : path.data.drop 10 ≠ [] ∧
        (path.data.drop 10).all (fun c => !isLineTerminator c) = true
    · rw [if_pos hrest] at h
      injection h with h
      subst h
      obtain ⟨tail, htail⟩ := (startsWith_iff _ _).mp hstart
      have hdrop : path.data.drop 10 = tail.data := by
        rw [htail, String.data_append]
        exact List.drop_left' rfl
      refine ⟨?_, fun hempty => hrest.1 (congrArg String.data hempty)⟩
      rw [hdrop]
      exact htail
    · rw [if_neg hrest] at h
      cases h
  · simp [hstart] at h

theorem append_info_eq (rest : String) :
    "/api/info/" ++ rest = "/api/" ++ ("info/" ++ rest) := by
  apply String.ext
  simp only [String.data_append]
  rfl

theorem info_ne_create (rest : String) : "/api/info/" ++ rest ≠ "/api/create" := by
  intro h
  have hd := congrArg (fun t : String => t.data.take 6) h
  simp only [String.data_append] at hd
  have h1 : ("/api/info/".data ++ rest.data).take 6 = "/api/i".data :=
    List.take_append_of_le_length (by decide)
  rw [h1] at hd
  exact absurd hd (by decide)

theorem pathname_data (path : String) (hpath : IsPathname path) :
    path = "/" ++ String.mk (path.data.drop 1) := by
  apply String.ext
  rw [String.data_append]
  obtain ⟨hhead, _⟩ := hpath
  cases hd : path.data with
  | nil => rw [hd] at hhead; cases hhead
  | cons c tail =>
    rw [hd] at hhead
    simp only [List.head?_cons, Option.some.injEq] at hhead
    subst hhead
    rfl

theorem routesTo_routeOf (path : String) (hpath : IsPathname path) :
    RoutesTo path (routeOf path) := by
  unfold routeOf
  by_cases hapi : startsWith path "/api/" = true
  · rw [if_pos hapi]
    by_cases hc : path = "/api/create"
    · rw [if_pos hc]; exact hc
    · rw [if_neg hc]
      cases hm : matchInfo path with
      | some identifier => exact matchInfo_some path identifier hm
      | none =>
        refine ⟨(underApi_iff path).mpr hapi, hc, ?_⟩
        rintro ⟨rest, hne, heq⟩
        have hline : ∀ c ∈ rest.data, isLineTerminator c = false := by
          intro c hcmem
          apply hpath.2 c
          rw [heq, String.data_append]
          exact List.mem_append_right _ hcmem
        rw [heq, matchInfo_append rest hne hline] at hm
        cases hm
  · rw [if_neg hapi]
    have hnot : ¬ UnderApi path := fun h => hapi ((underApi_iff path).mp h)
    by_cases hd : String.mk (path.data.drop 1) ≠ ""
    · rw [if_pos hd]
      exact ⟨hnot, pathname_data path hpath, hd⟩
    · rw [if_neg hd]
      refine ⟨hnot, ?_⟩
      have h := pathname_data path hpath
      rw [not_not.mp hd] at h
      exact h

theorem routeOf_of_routesTo (path : String) (hpath : IsPathname path) (target : Target)
    (h : RoutesTo path target) : target = routeOf path := by
  cases target with
  | create =>
    have h : path = "/api/create" := h
    subst h
    rfl
  | info rest =>
    obtain ⟨heq, hne⟩ := h
    have hapi : startsWith path "/api/" = true :=
      (startsWith_iff _ _).mpr ⟨"info/" ++ rest, by rw [heq, append_info_eq]⟩
    have hc : path ≠ "/api/create" := by rw [heq]; exact info_ne_create rest
    have hline : ∀ c ∈ rest.data, isLineTerminator c = false := by
      intro c hcmem
      apply hpath.2 c
      rw [heq, String.data_append]
      exact List.mem_append_right _ hcmem
    have hm : matchInfo path = some rest := by rw [heq]; exact matchInfo_append rest hne hline
    simp [routeOf, hapi, hc, hm]
  | notFound =>
    obtain ⟨hunder, hc, hno⟩ := h
    have hapi : startsWith path "/api/" = true := (underApi_iff path).mp hunder
    cases hm : matchInfo path with
    | some identifier =>
      obtain ⟨heq, hne⟩ := matchInfo_some path identifier hm
      exact absurd ⟨identifier, hne, heq⟩ hno
    | none => simp [routeOf, hapi, hc, hm]
  | redirect rest =>
    obtain ⟨hnot, heq, hne⟩ := h
    have hapi : ¬ startsWith path "/api/" = true := fun h => hnot ((underApi_iff path).mpr h)
    have hdrop : String.mk (path.data.drop 1) = rest := by
      rw [heq, String.data_append]
      rfl
    unfold routeOf
    rw [if_neg hapi, hdrop, if_pos hne]
  | landing =>
    obtain ⟨_, heq⟩ := h
    subst heq
    rfl

theorem handleCreateShortlink_response (P : Platform) (cfg : Config) (request : Request)
    (env : Env) :
    ((handleCreateShortlink P cfg request env).1 = Response.plain "Method Not Allowed" 405 ∧
        request.method ≠ "POST") ∨
    IsJsonError (handleCreateShortlink P cfg request env).1 ∨
    (handleCreateShortlink P cfg request env).1.status = 201 := by
  by_cases hmethod : request.method = "POST"
  swap
  · left
    exact ⟨by simp [handleCreateShortlink, hmethod], hmethod⟩
  right
  cases hjson : request.json with
  | none => left; simp [handleCreateShortlink, hmethod, hjson, IsJsonError, Response.ofJson]
  | some parsed =>
    cases h1 : getProperty parsed "url" with
    | none =>
      left; simp [handleCreateShortlink, hmethod, hjson, h1, IsJsonError, Response.ofJson]
    | some url =>
      cases h2 : getProperty parsed "customId" with
      | none =>
        left; simp [handleCreateShortlink, hmethod, hjson, h1, h2, IsJsonError, Response.ofJson]
      | some customId =>
        cases h3 : getProperty parsed "adminKey" with
        | none =>
          left
          simp [handleCreateShortlink, hmethod, hjson, h1, h2, h3, IsJsonError, Response.ofJson]
        | some adminKey =>
          cases hkey : strictNeString adminKey cfg.ADMIN_KEY with
          | true =>
            left
            simp [handleCreateShortlink, hmethod, hjson, h1, h2, h3, hkey, IsJsonError,
              Response.ofJson]
          | false =>
            cases url with
            | string u =>
              by_cases hu : u = ""
              · left
                simp [handleCreateShortlink, hmethod, hjson, h1, h2, h3, hkey, hu,
                  IsJsonError, Response.ofJson, JsValue.truthy]
              · cases hvalid : P.urlParses u with
                | false =>
                  left
                  simp [handleCreateShortlink, hmethod, hjson, h1, h2, h3, hkey, hu,
                    IsJsonError, Response.ofJson, JsValue.truthy, JsValue.isString,
                    Platform.coerceString, hvalid]
                | true =>
                  cases hc : customId.truthy with
                  | true =>
                    rw [handleCreateShortlink_custom P cfg request env parsed (.string u)
                      customId adminKey u hmethod hjson h1 h2 h3 hkey rfl hu hvalid hc]
                    cases hl : lookupTruthy (env.SHORTLINK_KV (P.coerceString customId))
                    · right; simp [Response.ofJson]
                    · left; simp [IsJsonError, Response.ofJson]
                  | false =>
                    rw [handleCreateShortlink_generated P cfg request env parsed (.string u)
                      customId adminKey u hmethod hjson h1 h2 h3 hkey rfl hu hvalid hc]
                    rcases generateUniqueShortId cfg env with ⟨_ | generated, after⟩
                    · left; simp [IsJsonError, Response.ofJson]
                    · right; rfl
            | _ =>
              left
              simp [handleCreateShortlink, hmethod, hjson, h1, h2, h3, hkey, IsJsonError,
                Response.ofJson, JsValue.truthy, JsValue.isString]

theorem handleGetLinkInfo_response (P : Platform) (cfg : Config) (shortId : String)
    (env : Env) :
    IsJsonError (handleGetLinkInfo P cfg shortId env).1 ∨
    (handleGetLinkInfo P cfg shortId env).1.status = 200 := by
  unfold handleGetLinkInfo
  simp only [kvGet]
  split
  · left; simp [IsJsonError, Response.ofJson]
  · split
    · left; simp [IsJsonError, Response.ofJson]
    · split
      · right; rfl
      · left; simp [IsJsonError, Response.ofJson]

/-! ## Claims about identifier generation -/

/-- C8 (as stated, refuted): asked for 65537 characters, `generateShortId`
returns no string: the random source throws when more than 65536 bytes are
requested, and the function does not catch it. -/
theorem generateShortId_over_quota :
    (generateShortId 65537 emptyEnv).1 = none ∧
    ¬ ∃ result : String, (generateShortId 65537 emptyEnv).1 = some result ∧
        result.length = 65537 := by
  have h : generateShortId 65537 emptyEnv = (none, emptyEnv) :=
    generateShortId_throws 65537 emptyEnv (by decide)
  rw [h]
  refine ⟨rfl, ?_⟩
  rintro ⟨result, hresult, _⟩
  cases hresult

/-- C8 (amended): for every length up to 65536 and every sequence of random
bytes, `generateShortId` returns a string of exactly `length` characters; its
i-th character is `CHARSET[byte_i mod 62]`, that index lies inside the
62-character charset, and every character is an upper-case letter, a lower-case
letter or a digit. -/
theorem generateShortId_spec (length : Nat) (env : Env) (hlen : length ≤ 65536) :
    ∃ result,
      (generateShortId length env).1 = some result ∧
      result.length = length ∧
      CHARSET.length = 62 ∧
      (∀ i, i < length →
        env.entropy i % 256 % 62 < CHARSET.length ∧
        result.data.get? i = CHARSET.data.get? (env.entropy i % 256 % 62)) ∧
      (∀ c ∈ result.data, c.isUpper ∨ c.isLower ∨ c.isDigit) := by
  refine ⟨drawn length env, by rw [generateShortId_eq length env hlen],
    drawn_length length env hlen, CHARSET_length, ?_, drawn_alnum length env hlen⟩
  intro i hi
  have hlt : env.entropy i % 256 % 62 < 62 := Nat.mod_lt _ (by decide)
  have hin : env.entropy i % 256 % 62 < CHARSET.data.length := by
    have : CHARSET.data.length = 62 := CHARSET_length
    omega
  refine ⟨by rw [CHARSET_length]; exact hlt, ?_⟩
  rw [drawn_data length env hlen, List.get?_eq_get hin]
  simp [hi, List.getElem?_eq_getElem hin]

theorem generateShortId_spec_witness :
    (6 : Nat) ≤ 65536 ∧
    ∃ result,
      (generateShortId 6 emptyEnv).1 = some result ∧
      result.length = 6 ∧
      CHARSET.length = 62 ∧
      (∀ i, i < 6 →
        emptyEnv.entropy i % 256 % 62 < CHARSET.length ∧
        result.data.get? i = CHARSET.data.get? (emptyEnv.entropy i % 256 % 62)) ∧
      (∀ c ∈ result.data, c.isUpper ∨ c.isLower ∨ c.isDigit) :=
  ⟨by decide, generateShortId_spec 6 emptyEnv (by decide)⟩

/-- C9 (as stated, refuted): the 62 symbols do not all receive the same number of
byte values: `A` is the image of five byte values (0, 62, 124, 186, 248) and `I`
of four (8, 70, 132, 194). -/
theorem symbolOfByte_not_uniform :
    bytesMappingTo (charAt CHARSET 0) = 5 ∧ bytesMappingTo (charAt CHARSET 8) = 4 ∧
    ¬ (∀ j k, j < 62 → k < 62 →
        bytesMappingTo (charAt CHARSET j) = bytesMappingTo (charAt CHARSET k)) := by
  have h0 : bytesMappingTo (charAt CHARSET 0) = 5 := by decide
  have h8 : bytesMappingTo (charAt CHARSET 8) = 4 := by decide
  refine ⟨h0, h8, fun h => ?_⟩
  have := h 0 8 (by decide) (by decide)
  rw [h0, h8] at this
  exact absurd this (by decide)

/-- C9 (amended): under the byte-to-character map of `generateShortId` every one
of the 62 symbols is the image of four or five byte values: the first eight
symbols (`A` to `H`) of five, the other fifty-four of four. -/
theorem symbolOfByte_counts (j : Nat) (hj : j < 62) :
    bytesMappingTo (charAt CHARSET j) = if j < 8 then 5 else 4 := by
  revert j
  decide

theorem symbolOfByte_counts_witness :
    3 < 62 ∧ bytesMappingTo (charAt CHARSET 3) = if 3 < 8 then 5 else 4 :=
  ⟨by decide, symbolOfByte_counts 3 (by decide)⟩

/-- C10 (as stated, refuted): with every random byte zero all five default-length
candidates are `AAAAAA`, which is a key of the store (holding the empty string),
so all five candidates are found in the store; yet `generateUniqueShortId`
returns the six-character `AAAAAA` after one lookup instead of a
seven-character identifier. -/
theorem generateUniqueShortId_returns_stored_key :
    (∀ j, j < 5 → emptyValueEnv.SHORTLINK_KV (candidate CONFIG emptyValueEnv j) ≠ none) ∧
    (generateUniqueShortId CONFIG emptyValueEnv).1 = some "AAAAAA" ∧
    emptyValueEnv.SHORTLINK_KV "AAAAAA" = some "" ∧
    "AAAAAA".length ≠ CONFIG.SHORT_ID_LENGTH + 1 := by
  have hquota : CONFIG.SHORT_ID_LENGTH ≤ 65536 := by decide
  have hc : ∀ j, j < 5 → candidate CONFIG emptyValueEnv j = "AAAAAA" := fun j _ =>
    String.ext (candidate_zero_entropy CONFIG emptyValueEnv j hquota (fun _ => rfl))
  have hres : (generateUniqueShortId CONFIG emptyValueEnv).1 = some "AAAAAA" := by
    unfold generateUniqueShortId
    simp only []
    rw [loop_step _ _ _ _ hquota, hc 0 (by decide)]
    rfl
  refine ⟨?_, hres, rfl, by decide⟩
  intro j hj
  rw [hc j hj]
  decide

/-- C10 (amended): with the default length within the quota of the random
source, `generateUniqueShortId` always returns, leaves the store as it was, and
performs at most 5 lookups, at most 6 identifier generations and no write.  It
returns the first of the five default-length candidates whose lookup yields no
non-empty value (a key holding the empty string counts as not found), after one
generation and one lookup per candidate tried; if all five lookups yield a
non-empty value it returns an identifier of length default+1 drawn next, which it
does not look up. -/
theorem generateUniqueShortId_spec (cfg : Config) (env : Env)
    (hquota : cfg.SHORT_ID_LENGTH < 65536) :
    ∃ events,
      (generateUniqueShortId cfg env).2.trace = env.trace ++ events ∧
      (generateUniqueShortId cfg env).2.SHORTLINK_KV = env.SHORTLINK_KV ∧
      lookups events ≤ 5 ∧ generations events ≤ 6 ∧ writes events = 0 ∧
      ((∃ k, k < 5 ∧
          (∀ j, j < k → lookupTruthy (env.SHORTLINK_KV (candidate cfg env j)) = true) ∧
          lookupTruthy (env.SHORTLINK_KV (candidate cfg env k)) = false ∧
          (generateUniqueShortId cfg env).1 = some (candidate cfg env k) ∧
          (candidate cfg env k).length = cfg.SHORT_ID_LENGTH ∧
          events = attemptEffects cfg env (k + 1)) ∨
       ((∀ j, j < 5 → lookupTruthy (env.SHORTLINK_KV (candidate cfg env j)) = true) ∧
          ∃ longer,
            (generateUniqueShortId cfg env).1 = some longer ∧
            (generateShortId (cfg.SHORT_ID_LENGTH + 1) (afterAttempts cfg env 5)).1
              = some longer ∧
            longer.length = cfg.SHORT_ID_LENGTH + 1 ∧
            events = attemptEffects cfg env 5 ++ [Effect.random (cfg.SHORT_ID_LENGTH + 1)] ∧
            Effect.kvGet longer ∉ events)) := by
  have hle : cfg.SHORT_ID_LENGTH ≤ 65536 := Nat.le_of_lt hquota
  rcases generateUniqueShortId_cases cfg env hle with
    ⟨k, hk, hbefore, hfree, hres⟩ | ⟨hall, hres⟩
  · obtain ⟨h1, h2, h3⟩ := attemptEffects_counts cfg env (k + 1)
    refine ⟨attemptEffects cfg env (k + 1), ?_, ?_, ?_, ?_, h3, Or.inl ?_⟩
    · rw [hres]; exact afterAttempts_trace cfg env (k + 1) hle
    · rw [hres]; exact afterAttempts_kv cfg env (k + 1) hle
    · omega
    · omega
    · exact ⟨k, hk, hbefore, hfree, by rw [hres], candidate_length cfg env k hle, rfl⟩
  · obtain ⟨h1, h2, h3⟩ := attemptEffects_counts cfg env 5
    have hgen := generateShortId_eq (cfg.SHORT_ID_LENGTH + 1) (afterAttempts cfg env 5) hquota
    have hlen : (drawn (cfg.SHORT_ID_LENGTH + 1) (afterAttempts cfg env 5)).length
        = cfg.SHORT_ID_LENGTH + 1 := drawn_length _ _ hquota
    refine ⟨attemptEffects cfg env 5 ++ [Effect.random (cfg.SHORT_ID_LENGTH + 1)],
      ?_, ?_, ?_, ?_, ?_, Or.inr ⟨hall,
        drawn (cfg.SHORT_ID_LENGTH + 1) (afterAttempts cfg env 5),
        by rw [hres, hgen], by rw [hgen], hlen, rfl, ?_⟩⟩
    · rw [hres, hgen]
      simp [afterAttempts_trace cfg env 5 hle]
    · rw [hres, hgen]
      exact afterAttempts_kv cfg env 5 hle
    · simp [lookups_append, lookups, h1]
    · simp [generations_append, generations, h2]
    · simp [writes_append, writes, h3]
    · intro hmem
      simp only [List.mem_append, List.mem_singleton] at hmem
      rcases hmem with hmem | hmem
      · have := mem_attemptEffects_kvGet cfg env _ hle 5 hmem
        omega
      · cases hmem

theorem generateUniqueShortId_spec_witness :
    CONFIG.SHORT_ID_LENGTH < 65536 ∧
    ∃ events,
      (generateUniqueShortId CONFIG crowdedEnv).2.trace = crowdedEnv.trace ++ events ∧
      (generateUniqueShortId CONFIG crowdedEnv).2.SHORTLINK_KV = crowdedEnv.SHORTLINK_KV ∧
      lookups events ≤ 5 ∧ generations events ≤ 6 ∧ writes events = 0 ∧
      ((∃ k, k < 5 ∧
          (∀ j, j < k →
            lookupTruthy (crowdedEnv.SHORTLINK_KV (candidate CONFIG crowdedEnv j)) = true) ∧
          lookupTruthy (crowdedEnv.SHORTLINK_KV (candidate CONFIG crowdedEnv k)) = false ∧
          (generateUniqueShortId CONFIG crowdedEnv).1 = some (candidate CONFIG crowdedEnv k) ∧
          (candidate CONFIG crowdedEnv k).length = CONFIG.SHORT_ID_LENGTH ∧
          events = attemptEffects CONFIG crowdedEnv (k + 1)) ∨
       ((∀ j, j < 5 →
            lookupTruthy (crowdedEnv.SHORTLINK_KV (candidate CONFIG crowdedEnv j)) = true) ∧
          ∃ longer,
            (generateUniqueShortId CONFIG crowdedEnv).1 = some longer ∧
            (generateShortId (CONFIG.SHORT_ID_LENGTH + 1) (afterAttempts CONFIG crowdedEnv 5)).1
              = some longer ∧
            longer.length = CONFIG.SHORT_ID_LENGTH + 1 ∧
            events = attemptEffects CONFIG crowdedEnv 5
              ++ [Effect.random (CONFIG.SHORT_ID_LENGTH + 1)] ∧
            Effect.kvGet longer ∉ events)) :=
  ⟨by decide, generateUniqueShortId_spec CONFIG crowdedEnv (by decide)⟩

/-! ## Claims about the handlers -/

/-- C3: a POST request to the Create Handler whose body parses as an object with
`adminKey` not exactly equal to the configured admin secret (absent included) is
answered 401 with a JSON body carrying an `error` field, and nothing is done to
the store (the state is unchanged), whatever `url` and `customId` are. -/
theorem handleCreateShortlink_unauthorized (P : Platform) (cfg : Config) (request : Request)
    (env : Env) (fields : List (String × JsValue))
    (hmethod : request.method = "POST")
    (hbody : request.json = some (.object fields))
    (hkey : lookupField "adminKey" fields ≠ .string cfg.ADMIN_KEY) :
    (handleCreateShortlink P cfg request env).1.status = 401 ∧
    (handleCreateShortlink P cfg request env).1.body
      = .json (.object [("error", .string "无效的管理员密钥")]) ∧
    (handleCreateShortlink P cfg request env).2.SHORTLINK_KV = env.SHORTLINK_KV ∧
    (handleCreateShortlink P cfg request env).2 = env := by
  have h : handleCreateShortlink P cfg request env =
      (Response.ofJson (.object [("error", .string "无效的管理员密钥")]) 401, env) := by
    simp [handleCreateShortlink, hmethod, hbody, getProperty,
      (strictNeString_iff _ _).mpr hkey]
  rw [h]
  exact ⟨rfl, rfl, rfl, rfl⟩

theorem handleCreateShortlink_unauthorized_witness :
    wrongKeyCreate.method = "POST" ∧
    (handleCreateShortlink demoPlatform CONFIG wrongKeyCreate crowdedEnv).1.status = 401 ∧
    (handleCreateShortlink demoPlatform CONFIG wrongKeyCreate crowdedEnv).2 = crowdedEnv :=
  have h := handleCreateShortlink_unauthorized demoPlatform CONFIG wrongKeyCreate crowdedEnv
    [("url", .string "not-a-url"), ("customId", .string "promo"), ("adminKey", .string "guess")]
    rfl rfl (by simp [lookupField, CONFIG])
  ⟨rfl, h.1, h.2.2.2⟩

/-- C6: for an identifier that is not a key of the store the Redirect Handler
answers 404 and the Info Handler answers 404, and the Redirect Handler leaves the
store unchanged: its only effect is the lookup, it performs no write. -/
theorem handlers_not_found (P : Platform) (cfg : Config) (shortId : String) (env : Env)
    (habsent : env.SHORTLINK_KV shortId = none) :
    (handleRedirect P shortId env).1.status = 404 ∧
    (handleGetLinkInfo P cfg shortId env).1.status = 404 ∧
    (handleRedirect P shortId env).2.SHORTLINK_KV = env.SHORTLINK_KV ∧
    (handleRedirect P shortId env).2.trace = env.trace ++ [Effect.kvGet shortId] ∧
    writes [Effect.kvGet shortId] = 0 := by
  have hf : lookupTruthy (env.SHORTLINK_KV shortId) = false := by rw [habsent]; rfl
  rw [handleRedirect_absent P shortId env hf]
  refine ⟨rfl, ?_, rfl, rfl, rfl⟩
  simp [handleGetLinkInfo, kvGet, hf, Response.ofJson]

theorem handlers_not_found_witness :
    emptyEnv.SHORTLINK_KV "nowhere" = none ∧
    (handleRedirect demoPlatform "nowhere" emptyEnv).1.status = 404 ∧
    (handleGetLinkInfo demoPlatform CONFIG "nowhere" emptyEnv).1.status = 404 :=
  have h := handlers_not_found demoPlatform CONFIG "nowhere" emptyEnv rfl
  ⟨rfl, h.1, h.2.1⟩

/-- C7: the Info Handler is a pure read.  For every store state and identifier
it leaves the store unchanged (its only effect is one lookup); the response of a
call made after any number of Info Handler calls for the same identifier equals
the response of the first call; and when the stored value is a well-formed record
the response is 200 with `originalUrl`, `createdAt` and `visits` equal to the
stored fields and `shortId` equal to the requested identifier. -/
theorem handleGetLinkInfo_pure_read (P : Platform) (cfg : Config) (shortId : String)
    (env : Env) :
    (handleGetLinkInfo P cfg shortId env).2.SHORTLINK_KV = env.SHORTLINK_KV ∧
    (handleGetLinkInfo P cfg shortId env).2.trace = env.trace ++ [Effect.kvGet shortId] ∧
    (∀ n : Nat,
      (handleGetLinkInfo P cfg shortId
        ((fun e => (handleGetLinkInfo P cfg shortId e).2)^[n] env)).1
        = (handleGetLinkInfo P cfg shortId env).1) ∧
    (∀ stored fields originalUrl createdAt visits,
      env.SHORTLINK_KV shortId = some stored →
      IsLinkRecord P stored fields originalUrl createdAt visits →
      (handleGetLinkInfo P cfg shortId env).1.status = 200 ∧
      (handleGetLinkInfo P cfg shortId env).1.body =
        .json (.object [("shortId", .string shortId),
                        ("shortUrl", .string (generateShortUrl P cfg (.string shortId))),
                        ("originalUrl", .string originalUrl),
                        ("createdAt", .string createdAt),
                        ("visits", .number visits)])) := by
  refine ⟨?_, ?_, ?_, ?_⟩
  · rw [handleGetLinkInfo_env]
  · rw [handleGetLinkInfo_env]
  · intro n
    exact handleGetLinkInfo_congr P cfg shortId env _
      (by rw [iterate_info_kv])
  · intro stored fields originalUrl createdAt visits hstored hrec
    obtain ⟨hne, hparse, hu, hc, hv⟩ := hrec
    simp [handleGetLinkInfo, kvGet, hstored, lookupTruthy_some stored hne, hparse,
      getProperty, hu, hc, hv, Response.ofJson]

theorem handleGetLinkInfo_pure_read_witness :
    crowdedEnv.SHORTLINK_KV "promo" = some "Jhttps://example.org" ∧
    (handleGetLinkInfo demoPlatform CONFIG "promo" crowdedEnv).1.status = 200 ∧
    (handleGetLinkInfo demoPlatform CONFIG "promo" crowdedEnv).1.body =
      .json (.object [("shortId", .string "promo"),
                      ("shortUrl", .string "https://your-worker-domain.workers.dev/promo"),
                      ("originalUrl", .string "https://example.org"),
                      ("createdAt", .string "2024-01-01T00:00:00.000Z"),
                      ("visits", .number 0)]) :=
  ⟨rfl, (handleGetLinkInfo_pure_read demoPlatform CONFIG "promo" crowdedEnv).2.2.2
    "Jhttps://example.org"
    [("originalUrl", .string "https://example.org"),
     ("createdAt", .string "2024-01-01T00:00:00.000Z"), ("visits", .number 0)]
    "https://example.org" "2024-01-01T00:00:00.000Z" 0 rfl
    ⟨by decide, rfl, rfl, rfl, rfl⟩⟩

/-- C4 (as stated, refuted): `promo` holds a well-formed record with
`visits = 2^53`; the Redirect Handler answers 302 and writes back the very same
text, whose `visits` is still `2^53` and not `2^53 + 1`: in double arithmetic
`2^53 + 1` rounds to `2^53`. -/
theorem handleRedirect_counter_saturates :
    saturatedEnv.SHORTLINK_KV "promo" = some "Jhttps://example.org/ 9007199254740992" ∧
    IsLinkRecord demoPlatform "Jhttps://example.org/ 9007199254740992"
      [("originalUrl", .string "https://example.org/"),
       ("createdAt", .string "2024-01-01T00:00:00.000Z"),
       ("visits", .number 9007199254740992)]
      "https://example.org/" "2024-01-01T00:00:00.000Z" 9007199254740992 ∧
    (handleRedirect demoPlatform "promo" saturatedEnv).1.status = 302 ∧
    (handleRedirect demoPlatform "promo" saturatedEnv).2.SHORTLINK_KV "promo"
      = some "Jhttps://example.org/ 9007199254740992" ∧
    demoPlatform.increment (.number 9007199254740992) = .number 9007199254740992 ∧
    (9007199254740992 : Int) ≠ 9007199254740992 + 1 := by
  refine ⟨rfl, ⟨by decide, rfl, rfl, rfl, rfl⟩, rfl, rfl, rfl, by decide⟩

/-- C4 (amended): when the value stored under an identifier is a well-formed Link
Record with integer `visits = n` and `n + 1` is at most `2^53` in magnitude, a
Redirect Handler call that answers 302 leaves under that identifier the
serialisation of a record with `visits = n + 1`, the same `originalUrl` and
`createdAt` (and every other field as it was), leaves every other key of the
store unchanged, and redirects to the serialisation of the stored
`originalUrl`. -/
theorem handleRedirect_counts_visit (P : Platform) (shortId : String) (env : Env)
    (stored : String) (fields : List (String × JsValue)) (originalUrl createdAt : String)
    (n : Int)
    (hstored : env.SHORTLINK_KV shortId = some stored)
    (hrec : IsLinkRecord P stored fields originalUrl createdAt n)
    (hsafe : (n + 1).natAbs ≤ 2 ^ 53)
    (h302 : (handleRedirect P shortId env).1.status = 302) :
    ∃ updated,
      (handleRedirect P shortId env).2.SHORTLINK_KV shortId
        = some (P.jsonStringify (.object updated)) ∧
      lookupField "visits" updated = .number (n + 1) ∧
      lookupField "originalUrl" updated = .string originalUrl ∧
      lookupField "createdAt" updated = .string createdAt ∧
      (∀ name, name ≠ "visits" → lookupField name updated = lookupField name fields) ∧
      (∀ key, key ≠ shortId →
        (handleRedirect P shortId env).2.SHORTLINK_KV key = env.SHORTLINK_KV key) ∧
      (∃ href, P.urlParse originalUrl = some href ∧
        (handleRedirect P shortId env).1.location = some href) := by
  obtain ⟨hne, hparse, hu, hc, hv⟩ := hrec
  have hrun := handleRedirect_record P shortId env stored fields originalUrl hstored hne hparse hu
  refine ⟨setField "visits" (.number (n + 1)) fields, ?_, ?_, ?_, ?_, ?_, ?_, ?_⟩
  · rw [hrun, hv]
    simp [kvPut, Platform.increment, roundToDouble_exact _ hsafe]
  · exact lookupField_setField_same _ _ _
  · rw [lookupField_setField_other _ _ _ (by decide)]; exact hu
  · rw [lookupField_setField_other _ _ _ (by decide)]; exact hc
  · intro name hname
    exact lookupField_setField_other _ _ _ hname _
  · intro key hkey
    rw [hrun]
    simp [kvPut, hkey]
  · rw [hrun] at h302 ⊢
    cases hp : P.urlParse originalUrl with
    | none =>
      rw [hp] at h302
      simp [Response.plain] at h302
    | some href => exact ⟨href, rfl, rfl⟩

theorem handleRedirect_counts_visit_witness :
    crowdedEnv.SHORTLINK_KV "promo" = some "Jhttps://example.org" ∧
    (handleRedirect demoPlatform "promo" crowdedEnv).1.status = 302 ∧
    (handleRedirect demoPlatform "promo" crowdedEnv).2.SHORTLINK_KV "promo"
      = some "Jhttps://example.org 1" ∧
    ∃ updated,
      (handleRedirect demoPlatform "promo" crowdedEnv).2.SHORTLINK_KV "promo"
        = some (demoPlatform.jsonStringify (.object updated)) ∧
      lookupField "visits" updated = .number (0 + 1) ∧
      lookupField "originalUrl" updated = .string "https://example.org" ∧
      lookupField "createdAt" updated = .string "2024-01-01T00:00:00.000Z" ∧
      (∀ name, name ≠ "visits" → lookupField name updated = lookupField name
        [("originalUrl", .string "https://example.org"),
         ("createdAt", .string "2024-01-01T00:00:00.000Z"), ("visits", .number 0)]) ∧
      (∀ key, key ≠ "promo" →
        (handleRedirect demoPlatform "promo" crowdedEnv).2.SHORTLINK_KV key
          = crowdedEnv.SHORTLINK_KV key) ∧
      (∃ href, demoPlatform.urlParse "https://example.org" = some href ∧
        (handleRedirect demoPlatform "promo" crowdedEnv).1.location = some href) :=
  ⟨rfl, rfl, rfl,
    handleRedirect_counts_visit demoPlatform "promo" crowdedEnv "Jhttps://example.org"
      [("originalUrl", .string "https://example.org"),
       ("createdAt", .string "2024-01-01T00:00:00.000Z"), ("visits", .number 0)]
      "https://example.org" "2024-01-01T00:00:00.000Z" 0 rfl
      ⟨by decide, rfl, rfl, rfl, rfl⟩ (by decide) rfl⟩

/-- C2 (as stated, refuted): `promo` is a key of the store, holding the empty
string; a create request with the correct admin key, a valid URL and custom
identifier `promo` is answered 201, not 409, and the value under `promo` is
overwritten. -/
theorem handleCreateShortlink_overwrites_empty_value :
    reservedEnv.SHORTLINK_KV "promo" = some "" ∧
    (handleCreateShortlink demoPlatform CONFIG customCreate reservedEnv).1.status = 201 ∧
    (handleCreateShortlink demoPlatform CONFIG customCreate reservedEnv).2.SHORTLINK_KV "promo"
      = some "Jhttps://example.com" := by
  have h := handleCreateShortlink_custom demoPlatform CONFIG customCreate reservedEnv
    (.object [("url", .string "https://example.com"), ("customId", .string "promo"),
              ("adminKey", .string "your-admin-key-here")])
    (.string "https://example.com") (.string "promo") (.string "your-admin-key-here")
    "https://example.com" rfl rfl rfl rfl rfl (by decide) rfl (by decide) (by decide) (by decide)
  rw [h]
  exact ⟨rfl, rfl, rfl⟩

/-- C2 (amended): for every store state and every POST request to the Create
Handler with the correct admin key, a valid url and a non-empty string customId
under which the store holds a non-empty value, the handler answers 409 and the
store after the call is identical to the store before it: the only effect is the
lookup of the custom identifier. -/
theorem handleCreateShortlink_conflict (P : Platform) (cfg : Config) (request : Request)
    (env : Env) (fields : List (String × JsValue)) (u customId stored : String)
    (hmethod : request.method = "POST")
    (hbody : request.json = some (.object fields))
    (hkey : lookupField "adminKey" fields = .string cfg.ADMIN_KEY)
    (hurl : lookupField "url" fields = .string u) (hu : u ≠ "")
    (hvalid : P.urlParses u = true)
    (hcustom : lookupField "customId" fields = .string customId) (hid : customId ≠ "")
    (hstored : env.SHORTLINK_KV customId = some stored) (hne : stored ≠ "") :
    (handleCreateShortlink P cfg request env).1.status = 409 ∧
    (handleCreateShortlink P cfg request env).1.body
      = .json (.object [("error", .string "自定义ID已被使用")]) ∧
    (handleCreateShortlink P cfg request env).2.SHORTLINK_KV = env.SHORTLINK_KV ∧
    (handleCreateShortlink P cfg request env).2.trace
      = env.trace ++ [Effect.kvGet customId] := by
  have hk : strictNeString (.string cfg.ADMIN_KEY) cfg.ADMIN_KEY = false := by
    simp [strictNeString]
  have h := handleCreateShortlink_custom P cfg request env (.object fields) (.string u)
    (.string customId) (.string cfg.ADMIN_KEY) u hmethod hbody
    (by simp [getProperty, hurl]) (by simp [getProperty, hcustom])
    (by simp [getProperty, hkey]) hk rfl hu hvalid (by simp [JsValue.truthy, hid])
  have hc : P.coerceString (.string customId) = customId := rfl
  rw [hc, hstored, lookupTruthy_some stored hne] at h
  rw [h]
  exact ⟨rfl, rfl, rfl, rfl⟩

theorem handleCreateShortlink_conflict_witness :
    crowdedEnv.SHORTLINK_KV "promo" = some "Jhttps://example.org" ∧
    (handleCreateShortlink demoPlatform CONFIG customCreate crowdedEnv).1.status = 409 ∧
    (handleCreateShortlink demoPlatform CONFIG customCreate crowdedEnv).2.SHORTLINK_KV
      = crowdedEnv.SHORTLINK_KV :=
  have h := handleCreateShortlink_conflict demoPlatform CONFIG customCreate crowdedEnv
    [("url", .string "https://example.com"), ("customId", .string "promo"),
     ("adminKey", .string "your-admin-key-here")]
    "https://example.com" "promo" "Jhttps://example.org"
    rfl rfl rfl rfl (by decide) (by decide) rfl (by decide) rfl (by decide)
  ⟨rfl, h.1, h.2.2.1⟩

/-- C1 (as stated, refuted): with the configured admin key, a valid URL and no
custom identifier, on a store that holds `AAAAAA` and `AAAAAAA` and a random
source delivering zero bytes, the handler answers 201 with shortId `AAAAAAA`:
seven characters, not the default six, and a key of the store before the call. -/
theorem handleCreateShortlink_fallback_not_fresh :
    (handleCreateShortlink demoPlatform CONFIG plainCreate crowdedEnv).1.status = 201 ∧
    (handleCreateShortlink demoPlatform CONFIG plainCreate crowdedEnv).1.body
      = .json (.object [("shortId", .string "AAAAAAA"),
          ("shortUrl", .string "https://your-worker-domain.workers.dev/AAAAAAA"),
          ("originalUrl", .string "https://example.com")]) ∧
    "AAAAAAA".length ≠ CONFIG.SHORT_ID_LENGTH ∧
    crowdedEnv.SHORTLINK_KV "AAAAAAA" = some "Jhttps://example.org" := by
  have hquota : CONFIG.SHORT_ID_LENGTH ≤ 65536 := by decide
  have hcand : ∀ j, candidate CONFIG crowdedEnv j = "AAAAAA" := fun j =>
    String.ext (candidate_zero_entropy CONFIG crowdedEnv j hquota (fun _ => rfl))
  have hgen : ∃ after, generateUniqueShortId CONFIG crowdedEnv = (some "AAAAAAA", after) := by
    rcases generateUniqueShortId_cases CONFIG crowdedEnv hquota with
      ⟨k, _, _, hfree, _⟩ | ⟨_, hres⟩
    · rw [hcand k] at hfree
      exact absurd hfree (by decide)
    · have hlong : drawn (CONFIG.SHORT_ID_LENGTH + 1) (afterAttempts CONFIG crowdedEnv 5)
          = "AAAAAAA" := by
        apply String.ext
        rw [drawn_data _ _ (by decide), afterAttempts_entropy _ _ _ hquota]
        rfl
      rw [hres, generateShortId_eq _ _ (by decide), hlong]
      exact ⟨_, rfl⟩
  obtain ⟨after, hgen⟩ := hgen
  have h := handleCreateShortlink_generated_ok demoPlatform CONFIG plainCreate crowdedEnv
    (.object [("url", .string "https://example.com"),
              ("adminKey", .string "your-admin-key-here")])
    (.string "https://example.com") .undefined (.string "your-admin-key-here")
    "https://example.com" "AAAAAAA" after rfl rfl rfl rfl rfl (by decide) rfl (by decide)
    (by decide) rfl hgen
  rw [h]
  exact ⟨rfl, rfl, by decide, rfl⟩

/-- C1 (amended): for every store state, every outcome of the random source and
every POST request to the Create Handler with `adminKey` equal to the configured
secret, a valid url and no customId (absent or falsy), the handler answers 201
with a shortId made only of letters and digits.  If one of the five
default-length candidates has no non-empty value in the store, shortId is the
first such candidate: it has exactly the default length and, before the call,
was not a key of the store or was a key holding the empty string.  If all five
hold non-empty values, shortId has length default+1.  The default length is
within the quota of the random source, as the configured 6 is. -/
theorem handleCreateShortlink_fresh_id (P : Platform) (cfg : Config) (request : Request)
    (env : Env) (fields : List (String × JsValue)) (u : String)
    (hquota : cfg.SHORT_ID_LENGTH < 65536)
    (hmethod : request.method = "POST")
    (hbody : request.json = some (.object fields))
    (hkey : lookupField "adminKey" fields = .string cfg.ADMIN_KEY)
    (hurl : lookupField "url" fields = .string u) (hu : u ≠ "")
    (hvalid : P.urlParses u = true)
    (hcustom : (lookupField "customId" fields).truthy = false) :
    ∃ shortId,
      (handleCreateShortlink P cfg request env).1.status = 201 ∧
      (handleCreateShortlink P cfg request env).1.body
        = .json (.object [("shortId", .string shortId),
            ("shortUrl", .string (generateShortUrl P cfg (.string shortId))),
            ("originalUrl", .string u)]) ∧
      (∀ c ∈ shortId.data, c.isUpper ∨ c.isLower ∨ c.isDigit) ∧
      ((∃ k, k < 5 ∧
          (∀ j, j < k → lookupTruthy (env.SHORTLINK_KV (candidate cfg env j)) = true) ∧
          shortId = candidate cfg env k ∧
          shortId.length = cfg.SHORT_ID_LENGTH ∧
          (env.SHORTLINK_KV shortId = none ∨ env.SHORTLINK_KV shortId = some "")) ∨
       ((∀ j, j < 5 → lookupTruthy (env.SHORTLINK_KV (candidate cfg env j)) = true) ∧
          shortId.length = cfg.SHORT_ID_LENGTH + 1)) := by
  have hle : cfg.SHORT_ID_LENGTH ≤ 65536 := Nat.le_of_lt hquota
  have hk : strictNeString (.string cfg.ADMIN_KEY) cfg.ADMIN_KEY = false := by
    simp [strictNeString]
  have hrun : ∀ generated after, generateUniqueShortId cfg env = (some generated, after) →
      handleCreateShortlink P cfg request env =
        (Response.ofJson
          (.object [("shortId", .string generated),
                    ("shortUrl", .string (generateShortUrl P cfg (.string generated))),
                    ("originalUrl", .string u)]) 201,
          kvPut generated (P.jsonStringify (linkData (.string u) env.now)) after) :=
    fun generated after hgen =>
      handleCreateShortlink_generated_ok P cfg request env (.object fields) (.string u)
        (lookupField "customId" fields) (.string cfg.ADMIN_KEY) u generated after hmethod hbody
        (by simp [getProperty, hurl]) (by simp [getProperty])
        (by simp [getProperty, hkey]) hk rfl hu hvalid hcustom hgen
  rcases generateUniqueShortId_cases cfg env hle with
    ⟨k, hlt, hbefore, hfree, hres⟩ | ⟨hall, hres⟩
  · have h := hrun _ _ hres
    refine ⟨candidate cfg env k, by rw [h]; rfl, by rw [h]; rfl,
      generateUniqueShortId_alnum cfg env _ hquota (by rw [hres]), Or.inl ?_⟩
    exact ⟨k, hlt, hbefore, rfl, candidate_length cfg env k hle,
      (lookupTruthy_false_iff _).mp hfree⟩
  · rw [generateShortId_eq _ _ hquota] at hres
    have h := hrun _ _ hres
    refine ⟨drawn (cfg.SHORT_ID_LENGTH + 1) (afterAttempts cfg env 5), by rw [h]; rfl,
      by rw [h]; rfl, generateUniqueShortId_alnum cfg env _ hquota (by rw [hres]), Or.inr ?_⟩
    exact ⟨hall, drawn_length _ _ hquota⟩

theorem handleCreateShortlink_fresh_id_witness :
    plainCreate.method = "POST" ∧
    ∃ shortId,
      (handleCreateShortlink demoPlatform CONFIG plainCreate emptyEnv).1.status = 201 ∧
      (handleCreateShortlink demoPlatform CONFIG plainCreate emptyEnv).1.body
        = .json (.object [("shortId", .string shortId),
            ("shortUrl", .string (generateShortUrl demoPlatform CONFIG (.string shortId))),
            ("originalUrl", .string "https://example.com")]) ∧
      (∀ c ∈ shortId.data, c.isUpper ∨ c.isLower ∨ c.isDigit) ∧
      ((∃ k, k < 5 ∧
          (∀ j, j < k →
            lookupTruthy (emptyEnv.SHORTLINK_KV (candidate CONFIG emptyEnv j)) = true) ∧
          shortId = candidate CONFIG emptyEnv k ∧
          shortId.length = CONFIG.SHORT_ID_LENGTH ∧
          (emptyEnv.SHORTLINK_KV shortId = none ∨ emptyEnv.SHORTLINK_KV shortId = some "")) ∨
       ((∀ j, j < 5 →
            lookupTruthy (emptyEnv.SHORTLINK_KV (candidate CONFIG emptyEnv j)) = true) ∧
          shortId.length = CONFIG.SHORT_ID_LENGTH + 1)) :=
  ⟨rfl, handleCreateShortlink_fresh_id demoPlatform CONFIG plainCreate emptyEnv
    [("url", .string "https://example.com"), ("adminKey", .string "your-admin-key-here")]
    "https://example.com" (by decide) rfl rfl rfl rfl (by decide) (by decide) rfl⟩

/-- C5 (as stated, refuted): a create request for `https://example.com` is
answered 201 with shortId `AAAAAA`, and the Redirect Handler call that follows
answers 302 with target `https://example.com/`, the serialisation of the parsed
URL, which is not exactly the url supplied. -/
theorem redirect_target_is_serialised :
    (handleCreateShortlink demoPlatform CONFIG plainCreate emptyEnv).1.status = 201 ∧
    (handleCreateShortlink demoPlatform CONFIG plainCreate emptyEnv).1.body
      = .json (.object [("shortId", .string "AAAAAA"),
          ("shortUrl", .string "https://your-worker-domain.workers.dev/AAAAAA"),
          ("originalUrl", .string "https://example.com")]) ∧
    (handleRedirect demoPlatform "AAAAAA"
      (handleCreateShortlink demoPlatform CONFIG plainCreate emptyEnv).2).1.status = 302 ∧
    (handleRedirect demoPlatform "AAAAAA"
      (handleCreateShortlink demoPlatform CONFIG plainCreate emptyEnv).2).1.location
      = some "https://example.com/" ∧
    "https://example.com/" ≠ "https://example.com" := by
  rw [create_plain_emptyEnv]
  exact ⟨rfl, rfl, rfl, rfl, by decide⟩

/-- C5 (amended): round trip.  Whenever a Create Handler call answers 201, its
body is `{shortId, shortUrl, originalUrl}` where `originalUrl` is the url of the
request and `shortUrl` is what `generateShortUrl` makes of the shortId: when the
configured base URL does not end in two slashes, the base URL without its
trailing slash, followed by a slash and the shortId.  A Redirect Handler call
with that shortId made right after it answers 302, and the redirect target is
the serialisation of the parsed url of the request.  The runtime is assumed to
parse back the record it serialised and to reject the empty text as JSON. -/
theorem create_then_redirect (P : Platform) (cfg : Config) (request : Request) (env : Env)
    (hempty : P.jsonParse "" = none)
    (hround : ∀ u, P.urlParses u = true →
      P.jsonParse (P.jsonStringify (linkData (.string u) env.now))
        = some (linkData (.string u) env.now))
    (h201 : (handleCreateShortlink P cfg request env).1.status = 201) :
    ∃ shortId u href,
      (∃ parsed, request.json = some parsed ∧ getProperty parsed "url" = some (.string u)) ∧
      P.urlParse u = some href ∧
      (handleCreateShortlink P cfg request env).1.body
        = .json (.object [("shortId", shortId),
            ("shortUrl", .string (generateShortUrl P cfg shortId)),
            ("originalUrl", .string u)]) ∧
      (¬ EndsInTwoSlashes cfg →
        ∃ base, IsBaseWithoutSlash cfg base ∧
          generateShortUrl P cfg shortId = base ++ "/" ++ P.coerceString shortId) ∧
      (handleRedirect P (P.coerceString shortId)
        (handleCreateShortlink P cfg request env).2).1.status = 302 ∧
      (handleRedirect P (P.coerceString shortId)
        (handleCreateShortlink P cfg request env).2).1.location = some href := by
  obtain ⟨parsed, customId, adminKey, u, hmethod, hjson, h1, h2, h3, hkey, hu, hvalid⟩ :=
    handleCreateShortlink_created_inv P cfg request env h201
  obtain ⟨href, hhref⟩ := (urlParses_iff P u).mp hvalid
  cases hc : customId.truthy with
  | true =>
    have h := handleCreateShortlink_custom P cfg request env parsed (.string u) customId
      adminKey u hmethod hjson h1 h2 h3 hkey rfl hu hvalid hc
    cases hl : lookupTruthy (env.SHORTLINK_KV (P.coerceString customId)) with
    | true =>
      rw [h, hl] at h201
      simp [Response.ofJson] at h201
    | false =>
      rw [hl] at h
      simp only [Bool.false_eq_true, if_false] at h
      have hr := handleRedirect_after_put P (P.coerceString customId) u href env.now
        { env with trace := env.trace ++ [Effect.kvGet (P.coerceString customId)] }
        hempty (hround u hvalid) hhref
      refine ⟨customId, u, href, ⟨parsed, hjson, h1⟩, hhref, ?_,
        fun hbase => generateShortUrl_base P cfg customId hbase, ?_, ?_⟩
      · rw [h]; rfl
      · rw [h]; exact hr.1
      · rw [h]; exact hr.2
  | false =>
    rcases hg : generateUniqueShortId cfg env with ⟨_ | generated, after⟩
    · have h := handleCreateShortlink_generated P cfg request env parsed (.string u) customId
        adminKey u hmethod hjson h1 h2 h3 hkey rfl hu hvalid hc
      rw [h, hg] at h201
      simp [Response.ofJson] at h201
    · have h := handleCreateShortlink_generated_ok P cfg request env parsed (.string u)
        customId adminKey u generated after hmethod hjson h1 h2 h3 hkey rfl hu hvalid hc hg
      have hr := handleRedirect_after_put P generated u href env.now after
        hempty (hround u hvalid) hhref
      refine ⟨.string generated, u, href, ⟨parsed, hjson, h1⟩, hhref, ?_,
        fun hbase => generateShortUrl_base P cfg (.string generated) hbase, ?_, ?_⟩
      · rw [h]; rfl
      · rw [h]; exact hr.1
      · rw [h]; exact hr.2

theorem create_then_redirect_witness :
    (handleCreateShortlink demoPlatform CONFIG plainCreate emptyEnv).1.status = 201 ∧
    ∃ shortId u href,
      (∃ parsed, plainCreate.json = some parsed ∧
        getProperty parsed "url" = some (.string u)) ∧
      demoPlatform.urlParse u = some href ∧
      (handleCreateShortlink demoPlatform CONFIG plainCreate emptyEnv).1.body
        = .json (.object [("shortId", shortId),
            ("shortUrl", .string (generateShortUrl demoPlatform CONFIG shortId)),
            ("originalUrl", .string u)]) ∧
      (¬ EndsInTwoSlashes CONFIG →
        ∃ base, IsBaseWithoutSlash CONFIG base ∧
          generateShortUrl demoPlatform CONFIG shortId
            = base ++ "/" ++ demoPlatform.coerceString shortId) ∧
      (handleRedirect demoPlatform (demoPlatform.coerceString shortId)
        (handleCreateShortlink demoPlatform CONFIG plainCreate emptyEnv).2).1.status = 302 ∧
      (handleRedirect demoPlatform (demoPlatform.coerceString shortId)
        (handleCreateShortlink demoPlatform CONFIG plainCreate emptyEnv).2).1.location
        = some href :=
  have h201 : (handleCreateShortlink demoPlatform CONFIG plainCreate emptyEnv).1.status = 201 := by
    rw [create_plain_emptyEnv]
    rfl
  ⟨h201, create_then_redirect demoPlatform CONFIG plainCreate emptyEnv rfl
    (fun u hu => demoPlatform_roundtrip u _ rfl hu) h201⟩

/-! ## Claims about the router -/

/-- C11 (as stated, refuted): a GET request to `/api/create` is answered 405 with
the plain text `Method Not Allowed`, and a GET request to the unknown path
`/api/stats` is answered 404 with the plain text `Not Found`; neither body is
JSON data with an `error` field. -/
theorem api_errors_plain_text :
    UnderApi getCreate.pathname ∧
    (handleRequest demoPlatform CONFIG "<!DOCTYPE html>" getCreate emptyEnv).1.status = 405 ∧
    (handleRequest demoPlatform CONFIG "<!DOCTYPE html>" getCreate emptyEnv).1.body
      = .text "Method Not Allowed" ∧
    ¬ IsJsonError (handleRequest demoPlatform CONFIG "<!DOCTYPE html>" getCreate emptyEnv).1 ∧
    UnderApi getUnknownApi.pathname ∧
    (handleRequest demoPlatform CONFIG "<!DOCTYPE html>" getUnknownApi emptyEnv).1.status
      = 404 ∧
    (handleRequest demoPlatform CONFIG "<!DOCTYPE html>" getUnknownApi emptyEnv).1.body
      = .text "Not Found" ∧
    ¬ IsJsonError
      (handleRequest demoPlatform CONFIG "<!DOCTYPE html>" getUnknownApi emptyEnv).1 := by
  have h1 : (handleRequest demoPlatform CONFIG "<!DOCTYPE html>" getCreate emptyEnv).1
      = Response.plain "Method Not Allowed" 405 := rfl
  have h2 : (handleRequest demoPlatform CONFIG "<!DOCTYPE html>" getUnknownApi emptyEnv).1
      = Response.plain "Not Found" 404 := rfl
  rw [h1, h2]
  refine ⟨⟨"create", by decide⟩, rfl, rfl, ?_, ⟨"stats", by decide⟩, rfl, rfl, ?_⟩
  · rintro ⟨message, hbody, _⟩
    cases hbody
  · rintro ⟨message, hbody, _⟩
    cases hbody

/-- C11 (amended): for every request whose path starts with `/api/` and whose
response has an error status (400, 401, 404, 405, 409 or 500), the body is JSON
data with an `error` message field, except in two cases where it is plain text:
the 405 `Method Not Allowed` answered to a request to `/api/create` whose method
is not POST, and the 404 `Not Found` answered to a path under `/api/` that is
neither `/api/create` nor matched as `/api/info/<rest>`.  In particular every
response with status 400, 401, 409 or 500 carries the JSON error body. -/
theorem api_error_bodies (P : Platform) (cfg : Config) (homePage : String)
    (request : Request) (env : Env)
    (hapi : UnderApi request.pathname)
    (herr : (handleRequest P cfg homePage request env).1.status
      ∈ [400, 401, 404, 405, 409, 500]) :
    (IsJsonError (handleRequest P cfg homePage request env).1 ∨
      ((handleRequest P cfg homePage request env).1 = Response.plain "Method Not Allowed" 405 ∧
        request.pathname = "/api/create" ∧ request.method ≠ "POST") ∨
      ((handleRequest P cfg homePage request env).1 = Response.plain "Not Found" 404 ∧
        request.pathname ≠ "/api/create" ∧ matchInfo request.pathname = none)) ∧
    ((handleRequest P cfg homePage request env).1.status ∈ [400, 401, 409, 500] →
      IsJsonError (handleRequest P cfg homePage request env).1) := by
  have hstart : startsWith request.pathname "/api/" = true := (underApi_iff _).mp hapi
  have hmain : IsJsonError (handleRequest P cfg homePage request env).1 ∨
      ((handleRequest P cfg homePage request env).1 = Response.plain "Method Not Allowed" 405 ∧
        request.pathname = "/api/create" ∧ request.method ≠ "POST") ∨
      ((handleRequest P cfg homePage request env).1 = Response.plain "Not Found" 404 ∧
        request.pathname ≠ "/api/create" ∧ matchInfo request.pathname = none) := by
    by_cases hc : request.pathname = "/api/create"
    · have hr : handleRequest P cfg homePage request env
          = handleCreateShortlink P cfg request env := by
        unfold handleRequest
        simp only []
        rw [if_pos hstart, if_pos hc]
      rw [hr] at herr ⊢
      rcases handleCreateShortlink_response P cfg request env with ⟨h405, hm⟩ | hj | h201
      · exact Or.inr (Or.inl ⟨h405, hc, hm⟩)
      · exact Or.inl hj
      · rw [h201] at herr
        exact absurd herr (by decide)
    · cases hm : matchInfo request.pathname with
      | some identifier =>
        have hr : handleRequest P cfg homePage request env
            = handleGetLinkInfo P cfg identifier env := by
          unfold handleRequest
          simp only []
          rw [if_pos hstart, if_neg hc, hm]
        rw [hr] at herr ⊢
        rcases handleGetLinkInfo_response P cfg identifier env with hj | h200
        · exact Or.inl hj
        · rw [h200] at herr
          exact absurd herr (by decide)
      | none =>
        have hr : handleRequest P cfg homePage request env
            = (Response.plain "Not Found" 404, env) := by
          unfold handleRequest
          simp only []
          rw [if_pos hstart, if_neg hc, hm]
        rw [hr]
        exact Or.inr (Or.inr ⟨rfl, hc, rfl⟩)
  refine ⟨hmain, fun hstatus => ?_⟩
  rcases hmain with hj | ⟨h405, _, _⟩ | ⟨h404, _, _⟩
  · exact hj
  · rw [h405] at hstatus
    exact absurd hstatus (by decide)
  · rw [h404] at hstatus
    exact absurd hstatus (by decide)

theorem api_error_bodies_witness :
    UnderApi wrongKeyCreate.pathname ∧
    (handleRequest demoPlatform CONFIG "<!DOCTYPE html>" wrongKeyCreate crowdedEnv).1.status
      = 401 ∧
    IsJsonError (handleRequest demoPlatform CONFIG "<!DOCTYPE html>" wrongKeyCreate crowdedEnv).1 :=
  have hstatus :
      (handleRequest demoPlatform CONFIG "<!DOCTYPE html>" wrongKeyCreate crowdedEnv).1.status
        = 401 := rfl
  have hapi : UnderApi wrongKeyCreate.pathname := ⟨"create", by decide⟩
  ⟨hapi, hstatus,
    (api_error_bodies demoPlatform CONFIG "<!DOCTYPE html>" wrongKeyCreate crowdedEnv hapi
      (by rw [hstatus]; decide)).2 (by rw [hstatus]; decide)⟩

/-- C12: for every request path (the pathname of a parsed URL) the router
dispatches to exactly one target of the dispatch rule, and runs that target: a
path starting with `/api/` goes to the Create Handler if it is exactly
`/api/create`, to the Info Handler with identifier `rest` if it is
`/api/info/` followed by a non-empty `rest` (everything to the end of the path,
slashes included), and to a 404 otherwise; a path not starting with `/api/` goes
to the Redirect Handler with the path minus its leading slash when that is
non-empty, and to the landing page when it is empty.  A path starting with
`/api/` never goes to the Redirect Handler or the landing page. -/
theorem handleRequest_routes (P : Platform) (cfg : Config) (homePage : String)
    (request : Request) (env : Env) (hpath : IsPathname request.pathname) :
    (∃ target, RoutesTo request.pathname target ∧
      (∀ other, RoutesTo request.pathname other → other = target) ∧
      handleRequest P cfg homePage request env
        = dispatch P cfg homePage request env target) ∧
    (UnderApi request.pathname → ∀ target, RoutesTo request.pathname target →
      target = .create ∨ (∃ identifier, target = .info identifier) ∨ target = .notFound) := by
  refine ⟨⟨routeOf request.pathname, routesTo_routeOf _ hpath, ?_,
    handleRequest_eq_dispatch P cfg homePage request env⟩, ?_⟩
  · intro other hother
    exact routeOf_of_routesTo _ hpath other hother
  · intro hunder target htarget
    cases target with
    | create => exact Or.inl rfl
    | info identifier => exact Or.inr (Or.inl ⟨identifier, rfl⟩)
    | notFound => exact Or.inr (Or.inr rfl)
    | redirect identifier => exact absurd hunder htarget.1
    | landing => exact absurd hunder htarget.1

theorem handleRequest_routes_witness :
    IsPathname "/api/info/a/b" ∧
    (∃ target, RoutesTo "/api/info/a/b" target ∧
      (∀ other, RoutesTo "/api/info/a/b" other → other = target) ∧
      handleRequest demoPlatform CONFIG "<!DOCTYPE html>"
          { method := "GET", pathname := "/api/info/a/b", json := none } crowdedEnv
        = dispatch demoPlatform CONFIG "<!DOCTYPE html>"
          { method := "GET", pathname := "/api/info/a/b", json := none } crowdedEnv target) ∧
    RoutesTo "/api/info/a/b" (.info "a/b") :=
  have hpath : IsPathname "/api/info/a/b" := ⟨rfl, by decide⟩
  ⟨hpath,
    (handleRequest_routes demoPlatform CONFIG "<!DOCTYPE html>"
      { method := "GET", pathname := "/api/info/a/b", json := none } crowdedEnv hpath).1,
    ⟨by decide, by decide⟩⟩

end Shortlink
